import Mathlib

/-!
Verification of the `zmq_plugin` messaging core (schema validation layer,
Hub routing/registry engine, Plugin client) via a shallow embedding of
`src/zmq_plugin/schema.py`, `src/zmq_plugin/hub.py` and
`src/zmq_plugin/plugin.py` into Lean.

JSON documents are modelled as an inductive `Json` type whose objects are
association lists (Python dicts have unique keys; all operations below treat
the first binding of a key as *the* binding, matching dict behaviour on the
objects the program actually builds).
-/

namespace ZmqPlugin

/-- JSON values (numbers restricted to integers: every number occurring in the
protocol — ports, `execution_count` — is integral). -/
inductive Json where
  | null : Json
  | bool : Bool → Json
  | num : Int → Json
  | str : String → Json
  | arr : List Json → Json
  | obj : List (String × Json) → Json

namespace Json

/-- Python hashability: dict keys may be scalars but not lists or dicts. -/
def hashable : Json → Bool
  | .obj _ => false
  | .arr _ => false
  | _ => true

/-- Equality of the scalar JSON values that can appear as dict keys (the
only keys the program ever inserts; compound values are unhashable and are
rejected before insertion). -/
def keyEq : Json → Json → Bool
  | .null, .null => true
  | .bool a, .bool b => a == b
  | .num a, .num b => a == b
  | .str a, .str b => a == b
  | _, _ => false

/-- First binding of key `k` in an association list. -/
def alookup : List (String × Json) → String → Option Json
  | [], _ => none
  | (k', v) :: rest, k => if k' = k then some v else alookup rest k

/-- Python `d[k] = v` on an (ordered) dict: replace the value in place if the
key is present, otherwise append a new binding at the end. -/
def aset : List (String × Json) → String → Json → List (String × Json)
  | [], k, v => [(k, v)]
  | (k', v') :: rest, k, v =>
      if k' = k then (k, v) :: rest else (k', v') :: aset rest k v

/-- Python `del d[k]` (keys are unique in real dicts, so removing every
binding of `k` coincides with removing the one binding). -/
def aremove : List (String × Json) → String → List (String × Json)
  | [], _ => []
  | (k', v) :: rest, k =>
      if k' = k then aremove rest k else (k', v) :: aremove rest k

/-- Field lookup on a JSON value: `none` when the value is not an object or
lacks the key. -/
def lookup : Json → String → Option Json
  | .obj kvs, k => alookup kvs k
  | _, _ => none

def isObj : Json → Bool
  | .obj _ => true
  | _ => false

def isStr : Json → Bool
  | .str _ => true
  | _ => false

def isNum : Json → Bool
  | .num _ => true
  | _ => false

def isBool : Json → Bool
  | .bool _ => true
  | _ => false

def isArr : Json → Bool
  | .arr _ => true
  | _ => false

/-- Remove field `k` of an object (identity on non-objects). -/
def removeField : Json → String → Json
  | .obj kvs, k => .obj (aremove kvs k)
  | j, _ => j

/-- Set field `k` of an object to `v` (identity on non-objects). -/
def setField : Json → String → Json → Json
  | .obj kvs, k, v => .obj (aset kvs k v)
  | j, _, _ => j

end Json

/-- A Python exception, reduced to its class name and message. -/
structure PyExc where
  ename : String
  evalue : String
deriving DecidableEq, Repr

/-- Python `d[k] = v` for dicts keyed by (hashable) JSON values — used for
the Hub registry, whose keys come from the `source` header field. -/
def jset (l : List (Json × Json)) (k v : Json) : List (Json × Json) :=
  match l with
  | [] => [(k, v)]
  | (k', v') :: rest =>
      if Json.keyEq k' k then (k, v) :: rest else (k', v') :: jset rest k v

/-- `jsonschema.ValidationError` carrying the violated constraint. -/
def validationError (msg : String) : PyExc := ⟨"ValidationError", msg⟩

/-- Python subscripting `x[k]` with a string key: `KeyError` on a missing
key of an object, `TypeError` when `x` is not an object. -/
def jget (x : Json) (k : String) : Except PyExc Json :=
  match x with
  | .obj kvs =>
      match Json.alookup kvs k with
      | some v => .ok v
      | none => .error ⟨"KeyError", k⟩
  | _ => .error ⟨"TypeError", "not subscriptable: " ++ k⟩

/-- `x[k1][k2]`. -/
def jget2 (x : Json) (k1 k2 : String) : Except PyExc Json :=
  match jget x k1 with
  | .ok v => jget v k2
  | .error e => .error e

/-!
### The message schema (`src/zmq_plugin/schema.py`)

`MESSAGE_SCHEMA` is a JSON-Schema Draft 4 document; each `definitions` entry
is translated into a Boolean checker with Draft 4 semantics: a `type`
constraint restricts the instance's kind; a `properties` entry constrains a
property only when it is present; `required` demands presence of each listed
key on an object; `enum` restricts to the listed constants; `allOf` conjoins.
-/

/-- `msg_type` enumeration of the `header` definition. -/
def msgTypeEnum : List String :=
  ["connect_request", "connect_reply", "execute_request", "execute_reply"]

/-- The seven required header sub-fields. -/
def headerRequired : List String :=
  ["msg_id", "session", "date", "source", "target", "msg_type", "version"]

/-- `required` keyword on an object's bindings. -/
def reqAll (kvs : List (String × Json)) (keys : List String) : Bool :=
  keys.all (fun k => (Json.alookup kvs k).isSome)

/-- A `properties` entry: the sub-schema `p` constrains key `k` only when it
is present. -/
def optCheck (kvs : List (String × Json)) (k : String) (p : Json → Bool) : Bool :=
  match Json.alookup kvs k with
  | none => true
  | some v => p v

/-- `{type: string, enum: es}`. -/
def strEnum (es : List String) : Json → Bool
  | .str s => es.contains s
  | _ => false

/-- `properties: {k: {type: string}}` — constrains `k` only when present. -/
def optStr (kvs : List (String × Json)) (k : String) : Bool :=
  optCheck kvs k Json.isStr

/-- `properties: {k: {type: string, enum: es}}`. -/
def optStrEnum (kvs : List (String × Json)) (k : String) (es : List String) : Bool :=
  optCheck kvs k (strEnum es)

/-- `properties: {k: {type: number}}`. -/
def optNum (kvs : List (String × Json)) (k : String) : Bool :=
  optCheck kvs k Json.isNum

/-- `properties: {k: {type: boolean}}`. -/
def optBool (kvs : List (String × Json)) (k : String) : Bool :=
  optCheck kvs k Json.isBool

/-- `properties: {k: {type: object}}`. -/
def optObj (kvs : List (String × Json)) (k : String) : Bool :=
  optCheck kvs k Json.isObj

/-- `definitions.header`: an object with the seven required, typed
sub-fields; `msg_type` drawn from the closed enum, `version` from `{"0.2"}`. -/
def checkHeader (j : Json) : Bool :=
  match j with
  | .obj kvs =>
      reqAll kvs headerRequired &&
      optStr kvs "msg_id" && optStr kvs "session" && optStr kvs "date" &&
      optStr kvs "source" && optStr kvs "target" &&
      optStrEnum kvs "msg_type" msgTypeEnum &&
      optStrEnum kvs "version" ["0.2"]
  | _ => false

/-- `properties: {k: <header>}` — constrains `k` only when present. -/
def optHeader (kvs : List (String × Json)) (k : String) : Bool :=
  optCheck kvs k checkHeader

/-- `definitions.base_message`: object with required `header` (matching the
header schema); optional `parent_header` (header-shaped), `metadata` and
`content` (objects). -/
def checkBaseMessage (j : Json) : Bool :=
  match j with
  | .obj kvs =>
      reqAll kvs ["header"] &&
      optHeader kvs "header" && optHeader kvs "parent_header" &&
      optObj kvs "metadata" && optObj kvs "content"
  | _ => false

/-- The `content` restriction of `definitions.execute_request`: when present,
`content` is an object with required string `command` and optional Boolean
`silent` / `stop_on_error`. -/
def checkExecuteRequestContent (kvs : List (String × Json)) : Bool :=
  match Json.alookup kvs "content" with
  | none => true
  | some (.obj c) =>
      reqAll c ["command"] && optStr c "command" && optBool c "silent" &&
      optBool c "stop_on_error"
  | some _ => false

/-- `definitions.execute_request` = `allOf [base_message, content-shape]`.
Note the content shape applies only when `content` is present: the schema
does not require `content` at the top level of an `execute_request`. -/
def checkExecuteRequest (j : Json) : Bool :=
  checkBaseMessage j &&
  (match j with
   | .obj kvs => checkExecuteRequestContent kvs
   | _ => true)

/-- `definitions.error`: required string `ename`; optional string `evalue`,
array `traceback`. -/
def checkErrorObj (j : Json) : Bool :=
  match j with
  | .obj kvs =>
      reqAll kvs ["ename"] && optStr kvs "ename" && optStr kvs "evalue" &&
      (match Json.alookup kvs "traceback" with
       | none => true
       | some v => v.isArr)
  | _ => true

/-- The `content` restriction of `definitions.execute_reply`: when present,
`content` is an object with required `status` (enum ok/error/abort) and
numeric `execution_count`. -/
def checkExecuteReplyContent (kvs : List (String × Json)) : Bool :=
  match Json.alookup kvs "content" with
  | none => true
  | some (.obj c) =>
      reqAll c ["status", "execution_count"] &&
      optStrEnum c "status" ["ok", "error", "abort"] &&
      optNum c "execution_count"
  | some _ => false

/-- The top-level `error` property restriction of `definitions.execute_reply`
(a sibling of `content` in the schema, checked only when present). -/
def checkExecuteReplyError (kvs : List (String × Json)) : Bool :=
  match Json.alookup kvs "error" with
  | none => true
  | some v => checkErrorObj v

/-- `definitions.execute_reply` = `allOf [base_message, shape]` with required
`content`. -/
def checkExecuteReply (j : Json) : Bool :=
  checkBaseMessage j &&
  (match j with
   | .obj kvs =>
       reqAll kvs ["content"] && checkExecuteReplyContent kvs &&
       checkExecuteReplyError kvs
   | _ => true)

/-- `definitions.connect_request` = `allOf [base_message]`. -/
def checkConnectRequest (j : Json) : Bool :=
  checkBaseMessage j

/-- The `command`/`publish` endpoint descriptors of `connect_reply.content`. -/
def checkEndpointInfo (j : Json) (withName : Bool) : Bool :=
  match j with
  | .obj kvs =>
      optStr kvs "uri" && optNum kvs "port" &&
      (!withName || optStr kvs "name")
  | _ => false

/-- The `content` restriction of `definitions.connect_reply`: when present,
`content` is an object with required `command` and `publish` descriptors. -/
def checkConnectReplyContent (kvs : List (String × Json)) : Bool :=
  match Json.alookup kvs "content" with
  | none => true
  | some (.obj c) =>
      reqAll c ["command", "publish"] &&
      (match Json.alookup c "command" with
       | none => true
       | some v => checkEndpointInfo v true) &&
      (match Json.alookup c "publish" with
       | none => true
       | some v => checkEndpointInfo v false)
  | some _ => false

/-- `definitions.connect_reply` = `allOf [base_message, shape]` with required
`content`. -/
def checkConnectReply (j : Json) : Bool :=
  checkBaseMessage j &&
  (match j with
   | .obj kvs => reqAll kvs ["content"] && checkConnectReplyContent kvs
   | _ => true)

/-- `message_types = ['base_message'] + <msg_type enum>` (schema.py line 142). -/
def message_types : List String := "base_message" :: msgTypeEnum

/-- The Draft-4 checker compiled from `get_schema(name)`. -/
def definitionChecker : String → (Json → Bool)
  | "base_message" => checkBaseMessage
  | "connect_request" => checkConnectRequest
  | "connect_reply" => checkConnectReply
  | "execute_request" => checkExecuteRequest
  | "execute_reply" => checkExecuteReply
  | _ => fun _ => false

/-- `MESSAGE_VALIDATORS = dict((k, Draft4Validator(MESSAGE_SCHEMAS[k])) for k
in message_types)`. -/
def MESSAGE_VALIDATORS : List (String × (Json → Bool)) :=
  message_types.map (fun k => (k, definitionChecker k))

/-- Lookup of a validator by key, as `MESSAGE_VALIDATORS[msg_type]`. -/
def lookupValidator : List (String × (Json → Bool)) → String → Option (Json → Bool)
  | [], _ => none
  | (k', v) :: rest, k => if k' = k then some v else lookupValidator rest k

/-- `schema.validate` (schema.py lines 151–157): validate as a base message,
then fetch `data['header']['msg_type']` and validate against the type-specific
validator; returns the input itself on success.  Non-`ValidationError`
failure points of the Python code (`KeyError`/`TypeError` on the subscripts
and on the validator-table lookup) are kept as distinct errors. -/
def validate (data : Json) : Except PyExc Json :=
  if checkBaseMessage data then
    match jget data "header" with
    | .error e => .error e
    | .ok h =>
        match jget h "msg_type" with
        | .error e => .error e
        | .ok (.str mt) =>
            match lookupValidator MESSAGE_VALIDATORS mt with
            | none => .error ⟨"KeyError", mt⟩
            | some chk =>
                if chk data then .ok data else .error (validationError mt)
        | .ok _ => .error ⟨"TypeError", "unhashable msg_type"⟩
  else .error (validationError "base_message")

/-!
### Wire frames and observable outputs

A ZeroMQ frame is a byte string; the embedding distinguishes frames whose
bytes form a JSON document (`jsonText j`, carrying the parsed value) from
frames that do not parse (`text s`).  `json_loads` models `json.loads` on a
frame: a non-JSON frame raises `ValueError`.
-/

inductive Frame where
  | text : String → Frame
  | jsonText : Json → Frame

def json_loads : Frame → Except PyExc Json
  | .text s => .error ⟨"ValueError", "No JSON object could be decoded: " ++ s⟩
  | .jsonText j => .ok j

/-- Payload mirrored to the publish socket. -/
inductive PubData where
  | frames : List Frame → PubData
  | frame : Frame → PubData

/-- Externally observable effects of the Hub and Plugin receive paths. -/
inductive Output where
  | publish : String → PubData → Output
  | querySend : Frame → Output
  | commandSend : List Frame → Output
  | callbackInvoked : Nat → Json → Output

/-!
### Message builders

`hub.py` imports `get_connect_reply, get_execute_reply` and `plugin.py`
imports `get_connect_request, get_execute_request, get_execute_reply,
decode_content_data` from `.schema`, but `src/zmq_plugin/schema.py` ends at
`validate`: these builders are absent from the source tree and are modelled
from the spec.
-/

/-- String content of a header field, defaulting to `""`. -/
def strField (h : Json) (k : String) : String :=
  match h.lookup k with
  | some (.str s) => s
  | _ => ""

/-- Modelled from the spec: the reply header construction shared by the
missing builders.  Per §3, a reply's `session` echoes the originating
request's session id, `source`/`target` are the request's `target`/`source`
swapped, `version` is the protocol version `"0.2"`; `msg_id` is fresh
(modelled as a deterministic tag on the request's `msg_id`) and `date` is a
creation timestamp (immaterial to every claim; a fixed string). -/
def replyHeader (request : Json) (msgType : String) : Json :=
  let h := (request.lookup "header").getD (.obj [])
  .obj [("msg_id", .str ("reply-of:" ++ strField h "msg_id")),
        ("session", .str (strField h "session")),
        ("date", .str "1970-01-01T00:00:00"),
        ("source", .str (strField h "target")),
        ("target", .str (strField h "source")),
        ("msg_type", .str msgType),
        ("version", .str "0.2")]

/-- Modelled from the spec: `error` content entry built from an exception —
`{ename: exception class name, evalue: exception message}` (§3). -/
def errorContent (e : PyExc) : Json :=
  .obj [("ename", .str e.ename), ("evalue", .str e.evalue)]

/-- Modelled from the spec: `get_execute_reply(request, execution_count,
error=None, **kwargs)`, absent from `src/zmq_plugin/schema.py`.  Wraps a
result into an `execute_reply` (§4.2): `content.status` is `"error"` when an
error is given and `"ok"` otherwise, `content.execution_count` is the counter
draw, `content.error` carries the exception, and remaining keyword data is
merged into `content`; `parent_header` preserves the request's header (§3). -/
def replyContentList (execution_count : Nat) (error : Option PyExc)
    (kwargs : List (String × Json)) : List (String × Json) :=
  let base : List (String × Json) :=
    [("status", .str (if error.isSome then "error" else "ok")),
     ("execution_count", .num (Int.ofNat execution_count))] ++
    (match error with
     | some e => [("error", errorContent e)]
     | none => [])
  kwargs.foldl (fun acc p => Json.aset acc p.1 p.2) base

def get_execute_reply (request : Json) (execution_count : Nat)
    (error : Option PyExc) (kwargs : List (String × Json)) : Json :=
  .obj [("header", replyHeader request "execute_reply"),
        ("parent_header", (request.lookup "header").getD (.obj [])),
        ("content", .obj (replyContentList execution_count error kwargs))]

/-- Modelled from the spec: `get_connect_reply(request, content)`, absent
from `src/zmq_plugin/schema.py`.  Builds a `connect_reply` carrying the
hub's socket info as `content` (§4.2), with the reply header convention of
§3. -/
def get_connect_reply (request : Json) (content : Json) : Json :=
  .obj [("header", replyHeader request "connect_reply"),
        ("parent_header", (request.lookup "header").getD (.obj [])),
        ("content", content)]

/-- Modelled from the spec: `get_execute_request(source, target, command,
data={})`, absent from `src/zmq_plugin/schema.py`.  Builds an
`execute_request` addressed from `source` to `target` with a fresh session
id (§4.3); freshness of `msg_id`/`session` is modelled by passing the
generated identifiers explicitly.  Caller-supplied keyword data rides in
`content.data`. -/
def get_execute_request (source target command : String)
    (data : List (String × Json)) (msgId sessionId : String) : Json :=
  .obj [("header",
         .obj [("msg_id", .str msgId), ("session", .str sessionId),
               ("date", .str "1970-01-01T00:00:00"),
               ("source", .str source), ("target", .str target),
               ("msg_type", .str "execute_request"),
               ("version", .str "0.2")]),
        ("content", .obj [("command", .str command), ("data", .obj data)])]

/-- Modelled from the spec: `get_connect_request(source, target)`, absent
from `src/zmq_plugin/schema.py`.  Builds a `connect_request` (§4.3). -/
def get_connect_request (source target : String) (msgId sessionId : String) : Json :=
  .obj [("header",
         .obj [("msg_id", .str msgId), ("session", .str sessionId),
               ("date", .str "1970-01-01T00:00:00"),
               ("source", .str source), ("target", .str target),
               ("msg_type", .str "connect_request"),
               ("version", .str "0.2")])]

/-!
### The Hub (`src/zmq_plugin/hub.py`)

Socket handles are modelled by per-endpoint epoch counters: destroying and
recreating an endpoint increments its epoch.  `execute_reply_id` holds the
*next* value `itertools.count` will yield.
-/

structure HubState where
  name : String
  registry : List (Json × Json)
  execute_reply_id : Nat
  query_epoch : Nat
  command_epoch : Nat
  publish_epoch : Nat
  command_uri : String
  command_port : Int
  publish_uri : String
  publish_port : Int

/-- `self.execute_reply_id.next()`. -/
def HubState.draw (st : HubState) : Nat × HubState :=
  (st.execute_reply_id, { st with execute_reply_id := st.execute_reply_id + 1 })

/-- `Hub.reset_query_socket` (hub.py lines 71–84): destroy and recreate the
query socket. -/
def reset_query_socket (st : HubState) : HubState :=
  { st with query_epoch := st.query_epoch + 1 }

/-- `Hub.reset` (hub.py lines 57–69): reinitialize the reply counter to
`count(1)` and reset the publish, query and command sockets. -/
def hubReset (st : HubState) : HubState :=
  { st with execute_reply_id := 1,
            publish_epoch := st.publish_epoch + 1,
            query_epoch := st.query_epoch + 1,
            command_epoch := st.command_epoch + 1 }

/-- `query_send` (hub.py lines 121–124): mirror to publish, then send the
serialized reply on the query socket. -/
def querySendOuts (reply : Json) : List Output :=
  [.publish "query_out" (.frame (.jsonText reply)),
   .querySend (.jsonText reply)]

/-- Dict keys are coerced to strings on JSON serialization of the registry. -/
def keyToStr : Json → String
  | .str s => s
  | .num n => toString n
  | .bool b => toString b
  | .null => "null"
  | _ => ""

def registryJson (r : List (Json × Json)) : Json :=
  .obj (r.map (fun p => (keyToStr p.1, p.2)))

/-- `Hub.on_execute__register` (hub.py lines 212–219): add `header.source`
to the registry, then respond with the registry contents (drawing a reply
id).  Failure points of the Python body — `KeyError` on a missing header
field, `TypeError` on an unhashable key — surface as `.error`. -/
def on_execute__register (st : HubState) (request : Json) :
    HubState × Except PyExc Json :=
  match jget2 request "header" "source" with
  | .error e => (st, .error e)
  | .ok source =>
      if source.hashable then
        let st1 := { st with registry := jset st.registry source source }
        let (n, st2) := st1.draw
        (st2, .ok (get_execute_reply request n none
                    [("data", .obj [("result", registryJson st1.registry)])]))
      else (st, .error ⟨"TypeError", "unhashable type"⟩)

/-- A hub-side `on_execute__<command>` handler (the extension point of
§4.2): may mutate the hub state and either return a result or raise. -/
def HubHandler := HubState → Json → HubState × Except PyExc Json

/-- `getattr(self, 'on_execute__' + command, None)` over a Hub (sub)class. -/
def HubTable := String → Option HubHandler

/-- The handler methods of the `Hub` class itself: only
`on_execute__register`. -/
def hubHandlers : HubTable :=
  fun c => if c = "register" then some on_execute__register else none

/-- `Hub._process__execute_request` (hub.py lines 132–175).  The `try` body
looks up `on_execute__<command>`; a missing handler yields a `NameError`
wrapped into an error reply, a found handler's result is wrapped via
`get_execute_reply(request, next(), **content)`; the built reply is
validated before being returned.  Any exception in the body (missing
`content`/`command` key, non-string command, handler raise, `**` of a
non-mapping, failed validation) is caught and converted into an error reply
that draws a further counter value and is returned unvalidated. -/
def hub_process_execute_request (H : HubTable) (st : HubState)
    (request : Json) : HubState × Json :=
  match jget2 request "content" "command" with
  | .error e =>
      let (n, st1) := st.draw
      (st1, get_execute_reply request n (some e) [])
  | .ok (.str cmd) =>
      match H cmd with
      | none =>
          let e : PyExc := ⟨"NameError", "Unrecognized command: " ++ cmd⟩
          let (n, st1) := st.draw
          let reply := get_execute_reply request n (some e) []
          match validate reply with
          | .ok r => (st1, r)
          | .error ve =>
              let (n2, st2) := st1.draw
              (st2, get_execute_reply request n2 (some ve) [])
      | some f =>
          match f st request with
          | (st1, .error e) =>
              let (n, st2) := st1.draw
              (st2, get_execute_reply request n (some e) [])
          | (st1, .ok content) =>
              match content with
              | .obj kvs =>
                  let (n, st2) := st1.draw
                  let reply := get_execute_reply request n none kvs
                  match validate reply with
                  | .ok r => (st2, r)
                  | .error ve =>
                      let (n2, st3) := st2.draw
                      (st3, get_execute_reply request n2 (some ve) [])
              | _ =>
                  let (_, st2) := st1.draw
                  let e : PyExc := ⟨"TypeError", "argument after ** must be a mapping"⟩
                  let (n2, st3) := st2.draw
                  (st3, get_execute_reply request n2 (some e) [])
  | .ok _ =>
      let e : PyExc := ⟨"TypeError", "cannot concatenate str and non-str"⟩
      let (n, st1) := st.draw
      (st1, get_execute_reply request n (some e) [])

/-- The socket info content of a `connect_reply` (hub.py lines 316–320). -/
def socketInfo (st : HubState) : Json :=
  .obj [("command", .obj [("uri", .str st.command_uri),
                          ("port", .num st.command_port),
                          ("name", .str st.name)]),
        ("publish", .obj [("uri", .str st.publish_uri),
                          ("port", .num st.publish_port)])]

/-- The second `try` block of `Hub.on_query_recv` (hub.py lines 308–331),
reached with the decoded `request` in scope *whether or not validation
succeeded*.  Its bare `except` converts any exception into a
`reset_query_socket` (state changes made before the raise persist). -/
def hubQuerySecondTry (st : HubState) (request : Json) : HubState × List Output :=
  match jget2 request "header" "msg_type" with
  | .error _ => (reset_query_socket st, [])
  | .ok (.str mt) =>
      if mt = "connect_request" then
        match jget2 request "header" "source" with
        | .error _ => (reset_query_socket st, [])
        | .ok source =>
            if source.hashable then
              let st1 := { st with registry := jset st.registry source source }
              let reply := get_connect_reply request (socketInfo st1)
              match validate reply with
              | .ok _ => (st1, querySendOuts reply)
              | .error _ => (reset_query_socket st1, [])
            else (reset_query_socket st, [])
      else if mt = "execute_request" then
        let (st1, reply) := hub_process_execute_request hubHandlers st request
        (st1, querySendOuts reply)
      else (reset_query_socket st, [])
  | .ok _ => (reset_query_socket st, [])

/-- `Hub.on_query_recv` (hub.py lines 278–331).  Mirrors the raw frames to
publish; decodes the first frame and validates it in a `try` that catches
*only* `jsonschema.ValidationError` (resetting the query socket); then runs
the processing block on the decoded request regardless of the validation
outcome.  The third component is an exception escaping the method: an
`IndexError` on an empty frame list or a `ValueError` from `json.loads` is
not caught. -/
def hubOnQueryRecv (st : HubState) (msg_frames : List Frame) :
    HubState × List Output × Option PyExc :=
  let pub := Output.publish "query_in" (.frames msg_frames)
  match msg_frames.head? with
  | none => (st, [pub], some ⟨"IndexError", "list index out of range"⟩)
  | some f =>
      match json_loads f with
      | .error e => (st, [pub], some e)
      | .ok request =>
          match validate request with
          | .ok _ =>
              let (st2, outs) := hubQuerySecondTry st request
              (st2, pub :: outs, none)
          | .error e =>
              if e.ename = "ValidationError" then
                let (st2, outs) := hubQuerySecondTry (reset_query_socket st) request
                (st2, pub :: outs, none)
              else (st, [pub], some e)

/-- `Hub.command_send` (hub.py lines 126–130): mirror to publish, then send
on the command socket. -/
def commandSendOuts (message : List Frame) : List Output :=
  [.publish "command_out" (.frames message), .commandSend message]

/-- `Hub.on_command_recv` (hub.py lines 221–276): mirror inbound frames to
publish; unpack exactly five frames `[a, b, null, msg_id, msg]` and relay
`[b, a, null, msg_id, msg]`; any unpacking failure (wrong arity) is caught
by the bare `except` and merely logged.  The payload is never decoded. -/
def hubOnCommandRecv (st : HubState) (msg_frames : List Frame) :
    HubState × List Output × Option PyExc :=
  let pub := Output.publish "command_in" (.frames msg_frames)
  match msg_frames with
  | [a, b, null, msg_id, msg] =>
      (st, pub :: commandSendOuts [b, a, null, msg_id, msg], none)
  | _ => (st, [pub], none)

/-!
### The Plugin (`src/zmq_plugin/plugin.py`)

Callbacks are opaque Python functions; the embedding identifies each by a
number, and an invocation is the observable output `callbackInvoked`.
-/

structure PluginState where
  name : String
  execute_reply_id : Nat
  callbacks : List (String × Nat)
  query_epoch : Nat

/-- `self.execute_reply_id.next()`. -/
def PluginState.draw (st : PluginState) : Nat × PluginState :=
  (st.execute_reply_id, { st with execute_reply_id := st.execute_reply_id + 1 })

/-- Lookup of a registered callback by (string) key. -/
def cblookup : List (String × Nat) → String → Option Nat
  | [], _ => none
  | (k', v) :: rest, k => if k' = k then some v else cblookup rest k

/-- The state-visible part of `Plugin.reset` (plugin.py line 81): the reply
counter is reinitialized to `count(1)`.  (The remainder of `reset` performs
socket I/O and hub registration, which have no bearing on the local state
fields the claims concern; note it does *not* clear `self.callbacks`.) -/
def pluginResetCounter (st : PluginState) : PluginState :=
  { st with execute_reply_id := 1 }

/-- `Plugin.execute` (plugin.py lines 180–199): build an `execute_request`
for `target_name`/`command` with the keyword data and send the 3-frame
envelope `['hub', '', payload]` on the command socket.  The `callback`
parameter is accepted exactly as in the source: the body never reads it and
`self.callbacks` is left untouched.  Fresh `msg_id`/`session` identifiers
are passed explicitly. -/
def pluginExecute (st : PluginState) (target_name command : String)
    (callback : Option Nat) (data : List (String × Json))
    (msgId sessionId : String) : PluginState × List Output :=
  let _ := callback
  let request := get_execute_request st.name target_name command data msgId sessionId
  (st, [.commandSend [.text "hub", .text "", .jsonText request]])

/-- `Plugin._process__execute_reply` (plugin.py lines 235–263): look up
`reply['header']['session_id']` in the callback registry and invoke the
registered callback; every exception in the body (notably the `KeyError`
when the header — whose schema field is `session`, not `session_id` — lacks
that key) is caught by the bare `except` and merely logged. -/
def plugin_process_execute_reply (st : PluginState) (reply : Json) :
    PluginState × List Output :=
  match jget reply "header" with
  | .error _ => (st, [])
  | .ok h =>
      match jget h "session_id" with
      | .error _ => (st, [])
      | .ok (.str s) =>
          match cblookup st.callbacks s with
          | some cb => (st, [.callbackInvoked cb reply])
          | none => (st, [])
      | .ok _ => (st, [])

/-- A plugin-side `on_execute__<command>` handler (user-supplied, §4.3):
returns a complete reply message or raises. -/
def PluginHandler := PluginState → Json → PluginState × Except PyExc Json

def PluginTable := String → Option PluginHandler

/-- The `Plugin` base class defines no `on_execute__` methods. -/
def pluginHandlers : PluginTable := fun _ => none

/-- `Plugin._process__execute_request` (plugin.py lines 265–304): look up
`on_execute__<command>`; a missing handler yields a `NameError` error
reply, a found handler returns the reply itself; the reply is validated and
serialized; any exception is converted into an error reply drawing a fresh
counter value.  The (possibly unvalidated error) reply is always sent as
`['hub', '', reply_str]` on the command socket. -/
def plugin_process_execute_request (PH : PluginTable) (st : PluginState)
    (request : Json) : PluginState × List Output :=
  let (st2, reply) :=
    match jget2 request "content" "command" with
    | .error e =>
        let (n, st1) := st.draw
        (st1, get_execute_reply request n (some e) [])
    | .ok (.str cmd) =>
        match PH cmd with
        | none =>
            let e : PyExc := ⟨"NameError", "Unrecognized command: " ++ cmd⟩
            let (n, st1) := st.draw
            let reply := get_execute_reply request n (some e) []
            match validate reply with
            | .ok _ => (st1, reply)
            | .error ve =>
                let (n2, stb) := st1.draw
                (stb, get_execute_reply request n2 (some ve) [])
        | some f =>
            match f st request with
            | (st1, .error e) =>
                let (n, stb) := st1.draw
                (stb, get_execute_reply request n (some e) [])
            | (st1, .ok reply) =>
                match validate reply with
                | .ok _ => (st1, reply)
                | .error ve =>
                    let (n, stb) := st1.draw
                    (stb, get_execute_reply request n (some ve) [])
    | .ok _ =>
        let e : PyExc := ⟨"TypeError", "cannot concatenate str and non-str"⟩
        let (n, st1) := st.draw
        (st1, get_execute_reply request n (some e) [])
  (st2, [Output.commandSend [.text "hub", .text "", .jsonText reply]])

/-- The dispatch block of `Plugin.on_command_recv` (plugin.py lines
226–233): reads `message['header']['msg_type']` — code that sits outside
any `try`, so a missing key escapes — and dispatches to the request/reply
processors. -/
def pluginDispatch (PH : PluginTable) (st : PluginState) (message : Json) :
    PluginState × List Output × Option PyExc :=
  match jget2 message "header" "msg_type" with
  | .error e => (st, [], some e)
  | .ok (.str s) =>
      if s = "execute_request" then
        let (st1, outs) := plugin_process_execute_request PH st message
        (st1, outs, none)
      else if s = "execute_reply" then
        let (st1, outs) := plugin_process_execute_reply st message
        (st1, outs, none)
      else (st, [], none)
  | .ok _ => (st, [], none)

/-- `Plugin.on_command_recv` (plugin.py lines 201–233): decode and validate
the trailing payload frame in a `try` that catches *only*
`jsonschema.ValidationError` (logging it); then run the dispatch block on
the decoded message whether or not the validation succeeded.  An
`IndexError` on an empty frame list and a `ValueError` from `json.loads`
escape the method uncaught. -/
def pluginOnCommandRecv (PH : PluginTable) (st : PluginState)
    (frames : List Frame) : PluginState × List Output × Option PyExc :=
  match frames.getLast? with
  | none => (st, [], some ⟨"IndexError", "list index out of range"⟩)
  | some f =>
      match json_loads f with
      | .error e => (st, [], some e)
      | .ok message =>
          match validate message with
          | .ok _ => pluginDispatch PH st message
          | .error e =>
              if e.ename = "ValidationError" then pluginDispatch PH st message
              else (st, [], some e)

/-!
### Traces

A receive loop delivers successive inbound frame lists to a receive entry
point; `runTrace` folds a step function over such a delivery sequence,
collecting all outputs.  (When a delivery lets an exception escape the
callback, the loop moves on to the next delivery.)
-/

def runTrace {σ ι : Type} (step : σ → ι → σ × List Output × Option PyExc) :
    σ → List ι → σ × List Output
  | s, [] => (s, [])
  | s, i :: rest =>
      let (s1, outs, _) := step s i
      let (s2, outs2) := runTrace step s1 rest
      (s2, outs ++ outs2)

/-- The message an output places on the wire, when any: the payload of a
query send, or the trailing payload frame of a command send. -/
def outReplyMsg : Output → Option Json
  | .querySend (.jsonText r) => some r
  | .commandSend fs =>
      match fs.getLast? with
      | some (.jsonText r) => some r
      | _ => none
  | _ => none

/-- `content.execution_count` of a message, when present and a natural. -/
def countOf (r : Json) : Option Nat :=
  match r.lookup "content" with
  | some c =>
      match c.lookup "execution_count" with
      | some (.num (Int.ofNat n)) => some n
      | _ => none
  | none => none

/-- The `execution_count` values of the reply messages among a list of
outputs, in emission order. -/
def emittedCounts (outs : List Output) : List Nat :=
  outs.filterMap (fun o => (outReplyMsg o).bind countOf)

/-- A step function is counter-sound for a counter projection `idOf` when
each delivery leaves the counter non-decreasing and every reply it emits
carries a count drawn between the old and new counter values (the emitted
counts of a single step are themselves strictly increasing). -/
def StepCounterOK {σ ι : Type} (idOf : σ → Nat)
    (step : σ → ι → σ × List Output × Option PyExc) : Prop :=
  ∀ s i, idOf s ≤ idOf (step s i).1 ∧
    (∀ c ∈ emittedCounts (step s i).2.1, idOf s ≤ c ∧ c < idOf (step s i).1) ∧
    List.Chain' (· < ·) (emittedCounts (step s i).2.1)

/-!
### Concrete fixtures used by witnesses and counterexamples
-/

def hubInit : HubState :=
  { name := "hub", registry := [], execute_reply_id := 1, query_epoch := 0,
    command_epoch := 0, publish_epoch := 0, command_uri := "tcp://localhost:12345",
    command_port := 12345, publish_uri := "tcp://localhost:12346",
    publish_port := 12346 }

def pluginInit : PluginState :=
  { name := "p1", execute_reply_id := 1, callbacks := [], query_epoch := 0 }

/-- A plugin state in which callback number `0` is registered for session
`"s1"` (as the spec says `execute` does when given a callback). -/
def pluginWithCb : PluginState :=
  { pluginInit with callbacks := [("s1", 0)] }

def sampleHeader (mt : String) : Json :=
  .obj [("msg_id", .str "m1"), ("session", .str "s1"), ("date", .str "d"),
        ("source", .str "p1"), ("target", .str "hub"),
        ("msg_type", .str mt), ("version", .str "0.2")]

/-- A well-formed `execute_request{command: "register"}` from plugin `p1`. -/
def sampleRegisterReq : Json :=
  .obj [("header", sampleHeader "execute_request"),
        ("content", .obj [("command", .str "register")])]

/-- A well-formed `execute_request{command: "doesNotExist"}`. -/
def sampleUnknownReq : Json :=
  .obj [("header", sampleHeader "execute_request"),
        ("content", .obj [("command", .str "doesNotExist")])]

/-- A well-formed `connect_request` from plugin `p1`. -/
def sampleConnectReq : Json :=
  .obj [("header", sampleHeader "connect_request")]

/-- A schema-invalid `connect_request`: its header is complete and valid but
`content` is a number where the base schema demands an object. -/
def badConnectReq : Json :=
  .obj [("header", sampleHeader "connect_request"), ("content", .num 42)]

/-- A schema-invalid `execute_request` (non-object `content`). -/
def badExecuteReq : Json :=
  .obj [("header", sampleHeader "execute_request"), ("content", .num 42)]

/-- A well-formed `execute_reply` whose `header.session` is `"s1"`. -/
def sampleReply : Json :=
  .obj [("header", sampleHeader "execute_reply"),
        ("content", .obj [("status", .str "ok"), ("execution_count", .num 1)])]

/-!
### Observable projections used in the claims
-/

/-- `m['header'][k]` as an optional value. -/
def headerField (r : Json) (k : String) : Option Json :=
  (r.lookup "header").bind (fun h => h.lookup k)

/-- `m['content'][k]` as an optional value. -/
def contentField (r : Json) (k : String) : Option Json :=
  (r.lookup "content").bind (fun c => c.lookup k)

/-- `m['content']['error'][k]` as an optional value. -/
def errorField (r : Json) (k : String) : Option Json :=
  (contentField r "error").bind (fun e => e.lookup k)

/-- Number of sends on the query socket among the outputs. -/
def numQuerySends : List Output → Nat
  | [] => 0
  | .querySend _ :: rest => numQuerySends rest + 1
  | _ :: rest => numQuerySends rest

/-- Number of sends on the command socket among the outputs. -/
def numCommandSends : List Output → Nat
  | [] => 0
  | .commandSend _ :: rest => numCommandSends rest + 1
  | _ :: rest => numCommandSends rest

/-- Number of callback invocations among the outputs. -/
def numCallbackInvocations : List Output → Nat
  | [] => 0
  | .callbackInvoked _ _ :: rest => numCallbackInvocations rest + 1
  | _ :: rest => numCallbackInvocations rest

/-- Multiplicity of key `k` in the Hub registry. -/
def countKey (r : List (Json × Json)) (k : Json) : Nat :=
  (r.filter (fun p => Json.keyEq p.1 k)).length

/-- Required top-level properties of each message type: the base schema
requires `header`, and the `execute_reply`/`connect_reply` schemas
additionally require `content`. -/
def requiredTopFields : String → List String
  | "execute_reply" => ["header", "content"]
  | "connect_reply" => ["header", "content"]
  | _ => ["header"]

/-- Required fields inside `content`, per message type (empty where the
schema marks none). -/
def requiredContentFields : String → List String
  | "execute_request" => ["command"]
  | "execute_reply" => ["status", "execution_count"]
  | "connect_reply" => ["command", "publish"]
  | _ => []

/-- `msg_type` of a message, when present as a string. -/
def msgTypeOf (m : Json) : Option String :=
  match headerField m "msg_type" with
  | some (.str s) => some s
  | _ => none

/-- Remove field `k` from the message's header. -/
def removeHeaderField (m : Json) (k : String) : Json :=
  match m.lookup "header" with
  | some h => m.setField "header" (h.removeField k)
  | none => m

/-- Remove field `k` from the message's content. -/
def removeContentField (m : Json) (k : String) : Json :=
  match m.lookup "content" with
  | some ct => m.setField "content" (ct.removeField k)
  | none => m

/-!
### Association-list lemmas
-/

namespace Json

theorem alookup_aremove_self (l : List (String × Json)) (k : String) :
    alookup (aremove l k) k = none := by
  induction l with
  | nil => rfl
  | cons p rest ih =>
      obtain ⟨k', v⟩ := p
      by_cases h : k' = k
      · simpa [aremove, h] using ih
      · simp [aremove, h, alookup, ih]

theorem alookup_aremove_ne (l : List (String × Json)) (k k' : String)
    (h : k' ≠ k) : alookup (aremove l k) k' = alookup l k' := by
  induction l with
  | nil => rfl
  | cons p rest ih =>
      obtain ⟨k0, v⟩ := p
      by_cases hp : k0 = k
      · have hne : k0 ≠ k' := fun hk => h (hk ▸ hp)
        simp [aremove, hp, alookup, hne, ih, Ne.symm h]
      · by_cases hq : k0 = k'
        · simp [aremove, hp, alookup, hq, h]
        · simp [aremove, hp, alookup, hq, ih]

theorem alookup_aset_self (l : List (String × Json)) (k : String) (v : Json) :
    alookup (aset l k v) k = some v := by
  induction l with
  | nil => simp [aset, alookup]
  | cons p rest ih =>
      obtain ⟨k0, v0⟩ := p
      by_cases h : k0 = k
      · simp [aset, h, alookup]
      · simp [aset, h, alookup, ih]

theorem alookup_aset_ne (l : List (String × Json)) (k k' : String) (v : Json)
    (h : k' ≠ k) : alookup (aset l k v) k' = alookup l k' := by
  induction l with
  | nil => simp [aset, alookup, Ne.symm h]
  | cons p rest ih =>
      obtain ⟨k0, v0⟩ := p
      by_cases hp : k0 = k
      · have hne : k ≠ k' := Ne.symm h
        simp [aset, hp, alookup, hne, hp ▸ hne]
      · simp [aset, hp, alookup, ih]

end Json

/-!
### Elimination lemmas for the schema checkers
-/

theorem reqAll_elim {kvs : List (String × Json)} {keys : List String}
    (h : reqAll kvs keys = true) {k : String} (hk : k ∈ keys) :
    ∃ v, Json.alookup kvs k = some v := by
  simp only [reqAll, List.all_eq_true] at h
  have := h k hk
  cases hv : Json.alookup kvs k with
  | none => rw [hv] at this; simp at this
  | some v => exact ⟨v, rfl⟩

theorem optCheck_elim {kvs : List (String × Json)} {k : String}
    {p : Json → Bool} (h : optCheck kvs k p = true) {v : Json}
    (hv : Json.alookup kvs k = some v) : p v = true := by
  simpa [optCheck, hv] using h

theorem optStr_elim {kvs : List (String × Json)} {k : String}
    (h : optStr kvs k = true) {v : Json}
    (hv : Json.alookup kvs k = some v) : ∃ s, v = .str s := by
  have := optCheck_elim h hv
  cases v <;> simp [Json.isStr] at this ⊢

theorem strEnum_elim {es : List String} {v : Json} (h : strEnum es v = true) :
    ∃ s, v = .str s ∧ s ∈ es := by
  cases v with
  | str s =>
      refine ⟨s, rfl, ?_⟩
      simpa [strEnum, List.contains, List.elem_iff] using h
  | null => simp [strEnum] at h
  | bool b => simp [strEnum] at h
  | num n => simp [strEnum] at h
  | arr l => simp [strEnum] at h
  | obj o => simp [strEnum] at h

theorem checkBaseMessage_elim {m : Json} (h : checkBaseMessage m = true) :
    ∃ kvs hd, m = .obj kvs ∧ Json.alookup kvs "header" = some hd ∧
      checkHeader hd = true := by
  cases m with
  | obj kvs =>
      simp only [checkBaseMessage, Bool.and_eq_true, optHeader] at h
      obtain ⟨v, hv⟩ := reqAll_elim h.1.1.1.1 (show "header" ∈ ["header"] by simp)
      exact ⟨kvs, v, rfl, hv, optCheck_elim h.1.1.1.2 hv⟩
  | null => simp [checkBaseMessage] at h
  | bool b => simp [checkBaseMessage] at h
  | num n => simp [checkBaseMessage] at h
  | str s => simp [checkBaseMessage] at h
  | arr l => simp [checkBaseMessage] at h

theorem checkHeader_elim_msg_type {hd : Json} (h : checkHeader hd = true) :
    ∃ hkvs mt, hd = .obj hkvs ∧ Json.alookup hkvs "msg_type" = some (.str mt) ∧
      mt ∈ msgTypeEnum := by
  cases hd with
  | obj hkvs =>
      simp only [checkHeader, Bool.and_eq_true, optStrEnum] at h
      obtain ⟨v, hv⟩ := reqAll_elim h.1.1.1.1.1.1.1 (show "msg_type" ∈ headerRequired by simp [headerRequired])
      obtain ⟨s, rfl, hs⟩ := strEnum_elim (optCheck_elim h.1.2 hv)
      exact ⟨hkvs, s, rfl, hv, hs⟩
  | null => simp [checkHeader] at h
  | bool b => simp [checkHeader] at h
  | num n => simp [checkHeader] at h
  | str s => simp [checkHeader] at h
  | arr l => simp [checkHeader] at h

/-- For every member of the `msg_type` enum there is a pre-built validator
(the keys of `MESSAGE_VALIDATORS` are exactly `base_message ::` the enum). -/
theorem lookupValidator_of_mem {mt : String} (h : mt ∈ msgTypeEnum) :
    lookupValidator MESSAGE_VALIDATORS mt = some (definitionChecker mt) := by
  fin_cases h <;> rfl

/-- The header a reply builder constructs is always schema-valid when its
`msg_type` is in the enum (all its fields are literal strings). -/
theorem checkHeader_replyHeader (req : Json) :
    checkHeader (replyHeader req "execute_reply") = true := rfl

theorem checkHeader_replyHeader_connect (req : Json) :
    checkHeader (replyHeader req "connect_reply") = true := rfl

/-- Schema validity of `get_execute_reply` output, for any keyword data that
leaves the required `status`/`execution_count` content fields intact.  The
originating request must carry a schema-valid `header` (copied into
`parent_header`). -/
theorem validate_get_execute_reply {req hd : Json} (n : Nat)
    (err : Option PyExc) (kwargs : List (String × Json))
    (hlook : req.lookup "header" = some hd) (hh : checkHeader hd = true)
    (hc1 : reqAll (replyContentList n err kwargs) ["status", "execution_count"] = true)
    (hc2 : optStrEnum (replyContentList n err kwargs) "status" ["ok", "error", "abort"] = true)
    (hc3 : optNum (replyContentList n err kwargs) "execution_count" = true) :
    validate (get_execute_reply req n err kwargs) =
      .ok (get_execute_reply req n err kwargs) := by
  have hph : checkHeader ((req.lookup "header").getD (.obj [])) = true := by
    rw [hlook]; exact hh
  have hbase : checkBaseMessage (get_execute_reply req n err kwargs) = true := by
    simp [checkBaseMessage, get_execute_reply, optHeader, optCheck, optObj,
      reqAll, Json.alookup, checkHeader_replyHeader, hph, Json.isObj]
  have hs12 : (Json.alookup (replyContentList n err kwargs) "status").isSome = true ∧
      (Json.alookup (replyContentList n err kwargs) "execution_count").isSome = true := by
    have := hc1
    simp [reqAll] at this
    exact this
  have hrep : checkExecuteReply (get_execute_reply req n err kwargs) = true := by
    have hb' : checkBaseMessage
        (Json.obj
          [("header", replyHeader req "execute_reply"),
           ("parent_header", (req.lookup "header").getD (Json.obj [])),
           ("content", Json.obj (replyContentList n err kwargs))]) = true := hbase
    simp only [checkExecuteReply, get_execute_reply, hb', Bool.true_and]
    simp [checkExecuteReplyContent, checkExecuteReplyError, Json.alookup,
      reqAll, hc1, hc2, hc3, hs12.1, hs12.2]
  have hjget : jget (get_execute_reply req n err kwargs) "header" =
      .ok (replyHeader req "execute_reply") := rfl
  have hjget2 : jget (replyHeader req "execute_reply") "msg_type" =
      .ok (.str "execute_reply") := rfl
  have hlv : lookupValidator MESSAGE_VALIDATORS "execute_reply" =
      some checkExecuteReply := rfl
  simp only [validate, hbase, if_true, hjget, hjget2, hlv, hrep]

/-!
### Registry (`jset`) lemmas
-/

theorem keyEq_elim {x y : Json} (h : Json.keyEq x y = true) : x = y := by
  cases x <;> cases y <;> simp_all [Json.keyEq]

theorem countKey_jset_eq_one {r : List (Json × Json)} {k v : Json}
    (hk : Json.keyEq k k = true) (h : countKey r k ≤ 1) :
    countKey (jset r k v) k = 1 := by
  induction r with
  | nil => simp [jset, countKey, List.filter_cons, hk]
  | cons p rest ih =>
      obtain ⟨k0, v0⟩ := p
      by_cases hp : Json.keyEq k0 k = true
      · have hrest : countKey rest k = 0 := by
          simp only [countKey, List.filter_cons, hp, if_true, List.length_cons] at h
          simp only [countKey]
          omega
        simp only [jset, hp, if_true, countKey, List.filter_cons, hk,
          List.length_cons]
        simp only [countKey] at hrest
        omega
      · rw [Bool.not_eq_true] at hp
        have hh : countKey rest k ≤ 1 := by
          simpa [countKey, List.filter_cons, hp] using h
        simp [jset, hp, countKey, List.filter_cons, ih hh]
        simpa [countKey] using ih hh

theorem jset_absent {r : List (Json × Json)} {k v : Json}
    (h : countKey r k = 0) : jset r k v = r ++ [(k, v)] := by
  induction r with
  | nil => rfl
  | cons p rest ih =>
      obtain ⟨k0, v0⟩ := p
      by_cases hp : Json.keyEq k0 k = true
      · simp [countKey, List.filter, hp] at h
      · rw [Bool.not_eq_true] at hp
        simp only [countKey, List.filter, hp, Bool.false_eq_true, if_false] at h ⊢
        simp [jset, hp, ih (by simpa [countKey] using h)]

theorem jset_present_keys {r : List (Json × Json)} {k v : Json}
    (h : 1 ≤ countKey r k) :
    (jset r k v).map Prod.fst = r.map Prod.fst := by
  induction r with
  | nil => simp [countKey, List.filter] at h
  | cons p rest ih =>
      obtain ⟨k0, v0⟩ := p
      by_cases hp : Json.keyEq k0 k = true
      · have hk0 : k0 = k := keyEq_elim hp
        subst hk0
        simp [jset, hp]
      · rw [Bool.not_eq_true] at hp
        have hrest : 1 ≤ countKey rest k := by
          simpa [countKey, List.filter_cons, hp] using h
        simp [jset, hp, ih hrest]

theorem jset_mem_keys {r : List (Json × Json)} {k v x : Json}
    (h : x ∈ r.map Prod.fst) : x ∈ (jset r k v).map Prod.fst := by
  induction r with
  | nil => simp at h
  | cons p rest ih =>
      obtain ⟨k0, v0⟩ := p
      by_cases hp : Json.keyEq k0 k = true
      · have hk0 : k0 = k := keyEq_elim hp
        simp only [jset, hp, if_true]
        simpa [hk0] using h
      · rw [Bool.not_eq_true] at hp
        simp only [jset, hp, Bool.false_eq_true, if_false]
        simp only [List.map_cons, List.mem_cons] at h ⊢
        rcases h with h | h
        · exact Or.inl h
        · exact Or.inr (ih h)

theorem jset_idem (r : List (Json × Json)) (k v : Json)
    (hk : Json.keyEq k k = true) : jset (jset r k v) k v = jset r k v := by
  induction r with
  | nil => simp [jset, hk]
  | cons p rest ih =>
      obtain ⟨k0, v0⟩ := p
      by_cases hp : Json.keyEq k0 k = true
      · simp [jset, hp, hk]
      · rw [Bool.not_eq_true] at hp
        simp [jset, hp, ih]

/-- A required header field of declared string type, extracted from a valid
header. -/
theorem checkHeader_str_field {hkvs : List (String × Json)}
    (h : checkHeader (.obj hkvs) = true) {k : String}
    (hk : k ∈ (["msg_id", "session", "date", "source", "target"] : List String)) :
    ∃ s, Json.alookup hkvs k = some (.str s) := by
  have h' := h
  simp only [checkHeader, Bool.and_eq_true, optStr] at h'
  have hreq := h'.1.1.1.1.1.1.1
  have hmem : k ∈ headerRequired := by
    fin_cases hk <;> simp [headerRequired]
  obtain ⟨v, hv⟩ := reqAll_elim hreq hmem
  have hstr : ∃ s, v = .str s := by
    fin_cases hk
    · exact optStr_elim (show optStr hkvs "msg_id" = true from by
        simpa [optStr] using h'.1.1.1.1.1.1.2) hv
    · exact optStr_elim (show optStr hkvs "session" = true from by
        simpa [optStr] using h'.1.1.1.1.1.2) hv
    · exact optStr_elim (show optStr hkvs "date" = true from by
        simpa [optStr] using h'.1.1.1.1.2) hv
    · exact optStr_elim (show optStr hkvs "source" = true from by
        simpa [optStr] using h'.1.1.1.2) hv
    · exact optStr_elim (show optStr hkvs "target" = true from by
        simpa [optStr] using h'.1.1.2) hv
  obtain ⟨s, rfl⟩ := hstr
  exact ⟨s, hv⟩

/-- After successful base validation the subscripts `data['header']` and
`['msg_type']` cannot fail, the found `msg_type` lies in the closed enum and
the validator-table lookup for it succeeds. -/
theorem base_valid_lookups {j : Json} (hb : checkBaseMessage j = true) :
    ∃ hd mt, jget j "header" = .ok hd ∧ jget hd "msg_type" = .ok (.str mt) ∧
      mt ∈ msgTypeEnum ∧
      lookupValidator MESSAGE_VALIDATORS mt = some (definitionChecker mt) := by
  obtain ⟨kvs, hd, rfl, hhd, hch⟩ := checkBaseMessage_elim hb
  obtain ⟨hkvs, mt, rfl, hmt, hmem⟩ := checkHeader_elim_msg_type hch
  exact ⟨Json.obj hkvs, mt, by simp [jget, hhd], by simp [jget, hmt], hmem,
    lookupValidator_of_mem hmem⟩

/-- A successful `validate` implies base-schema validity. -/
theorem validate_ok_base {m m' : Json} (h : validate m = .ok m') :
    checkBaseMessage m = true := by
  by_cases hb : checkBaseMessage m = true
  · exact hb
  · rw [Bool.not_eq_true] at hb
    simp [validate, hb] at h

/-- A valid header is an object. -/
theorem checkHeader_obj {hd : Json} (h : checkHeader hd = true) :
    ∃ hkvs, hd = .obj hkvs := by
  cases hd <;> first
    | exact ⟨_, rfl⟩
    | simp_all [checkHeader]

/-- Membership of a required key that is absent falsifies `reqAll`. -/
theorem reqAll_false {kvs : List (String × Json)} {keys : List String}
    {k : String} (hk : k ∈ keys) (h : Json.alookup kvs k = none) :
    reqAll kvs keys = false := by
  rw [reqAll]
  by_contra hc
  rw [Bool.not_eq_false, List.all_eq_true] at hc
  have := hc k hk
  simp [h] at this

/-- `validate` on every input either returns the input itself or raises a
`ValidationError`. -/
theorem validate_total (j : Json) :
    validate j = .ok j ∨ ∃ m, validate j = .error (validationError m) := by
  by_cases hb : checkBaseMessage j = true
  · obtain ⟨hd, mt, h1, h2, hmem, hlv⟩ := base_valid_lookups hb
    by_cases hc : definitionChecker mt j = true
    · left
      simp only [validate, hb, if_true, h1, h2, hlv, hc]
    · right
      refine ⟨mt, ?_⟩
      simp only [validate, hb, if_true, h1, h2, hlv]
      simp [hc]
  · right
    refine ⟨"base_message", ?_⟩
    simp only [Bool.not_eq_true] at hb
    simp [validate, hb]

/-- When `validate` succeeds it returns its input. -/
theorem validate_isOk_eq {m : Json} (h : (validate m).isOk = true) :
    validate m = .ok m := by
  rcases validate_total m with hv | ⟨msg, hv⟩
  · exact hv
  · rw [hv] at h; simp [Except.isOk, Except.toBool] at h

/-- What a successful `validate` guarantees: base validity, the header and
`msg_type` lookups, enum membership and success of the per-type checker. -/
theorem validate_ok_elim {m : Json} (h : validate m = .ok m) :
    checkBaseMessage m = true ∧
    ∃ hd mt, jget m "header" = .ok hd ∧ jget hd "msg_type" = .ok (.str mt) ∧
      mt ∈ msgTypeEnum ∧ definitionChecker mt m = true := by
  have hb := validate_ok_base h
  obtain ⟨hd, mt, h1, h2, hmem, hlv⟩ := base_valid_lookups hb
  refine ⟨hb, hd, mt, h1, h2, hmem, ?_⟩
  by_cases hc : definitionChecker mt m = true
  · exact hc
  · rw [Bool.not_eq_true] at hc
    simp only [validate, hb, if_true, h1, h2, hlv, hc] at h
    simp at h

/-- A failed base validation makes `validate` fail with the base error. -/
theorem validate_error_of_base_false {m : Json}
    (h : checkBaseMessage m = false) :
    validate m = .error (validationError "base_message") := by
  simp [validate, h]

/-- A failed per-type validation (after a successful base validation) makes
`validate` fail with the type's error. -/
theorem validate_error_type {m : Json} {hd : Json} {t : String}
    (hb : checkBaseMessage m = true)
    (h1 : jget m "header" = .ok hd) (h2 : jget hd "msg_type" = .ok (.str t))
    (hmem : t ∈ msgTypeEnum) (hfail : definitionChecker t m = false) :
    validate m = .error (validationError t) := by
  simp only [validate, hb, if_true, h1, h2, lookupValidator_of_mem hmem, hfail]
  simp

/-- Base validity is stable under changes that preserve the `header`,
`parent_header` and `metadata` bindings and keep `content` object-shaped. -/
theorem checkBaseMessage_intro {kvs kvs' : List (String × Json)}
    (hbase : checkBaseMessage (.obj kvs) = true)
    (hh : Json.alookup kvs' "header" = Json.alookup kvs "header")
    (hp : Json.alookup kvs' "parent_header" = Json.alookup kvs "parent_header")
    (hm : Json.alookup kvs' "metadata" = Json.alookup kvs "metadata")
    (hc : optObj kvs' "content" = true) :
    checkBaseMessage (.obj kvs') = true := by
  simp only [checkBaseMessage, Bool.and_eq_true] at hbase ⊢
  refine ⟨⟨⟨⟨?_, ?_⟩, ?_⟩, ?_⟩, hc⟩
  · simpa [reqAll, hh] using hbase.1.1.1.1
  · simpa [optHeader, optCheck, hh] using hbase.1.1.1.2
  · simpa [optHeader, optCheck, hp] using hbase.1.1.2
  · simpa [optObj, optCheck, hm] using hbase.1.2

/-- A header stripped of a required field fails the header schema. -/
theorem checkHeader_missing {hkvs : List (String × Json)} {k : String}
    (hk : k ∈ headerRequired) (h : Json.alookup hkvs k = none) :
    checkHeader (.obj hkvs) = false := by
  simp [checkHeader, reqAll_false hk h]

/-- A message whose bound header fails the header schema fails base
validation. -/
theorem checkBaseMessage_bad_header {kvs' : List (String × Json)} {bad : Json}
    (h : Json.alookup kvs' "header" = some bad)
    (hbad : checkHeader bad = false) :
    checkBaseMessage (.obj kvs') = false := by
  simp [checkBaseMessage, optHeader, optCheck, h, hbad]

/-- The `content` of a base-valid message is an object when present. -/
theorem checkBaseMessage_content_obj {kvs : List (String × Json)}
    (hb : checkBaseMessage (.obj kvs) = true) {ct : Json}
    (hct : Json.alookup kvs "content" = some ct) : ∃ ckvs, ct = .obj ckvs := by
  simp only [checkBaseMessage, Bool.and_eq_true, optObj] at hb
  have := optCheck_elim hb.2 hct
  cases ct <;> first
    | exact ⟨_, rfl⟩
    | simp_all [Json.isObj]

/-!
### Counter lemmas for the trace claims
-/

theorem countOf_get_execute_reply (req : Json) (n : Nat) (e : Option PyExc) :
    countOf (get_execute_reply req n e []) = some n := by
  cases e <;> rfl

theorem countOf_get_execute_reply_wrap (req : Json) (n : Nat)
    (h p c : Json) :
    countOf (get_execute_reply req n none
      [("header", h), ("parent_header", p), ("content", c)]) = some n := rfl

theorem countOf_get_connect_reply (req : Json) (st : HubState) :
    countOf (get_connect_reply req (socketInfo st)) = none := rfl

theorem emittedCounts_nil : emittedCounts [] = [] := rfl

theorem emittedCounts_querySendOuts (r : Json) :
    emittedCounts (querySendOuts r) = (countOf r).toList := by
  cases h : countOf r <;>
    simp [emittedCounts, querySendOuts, outReplyMsg, List.filterMap, h,
      Option.toList]

theorem emittedCounts_pluginSend (r : Json) :
    emittedCounts [Output.commandSend [.text "hub", .text "", .jsonText r]]
      = (countOf r).toList := by
  cases h : countOf r <;>
    simp [emittedCounts, outReplyMsg, List.filterMap, List.getLast?, h,
      Option.toList]

theorem emittedCounts_append (a b : List Output) :
    emittedCounts (a ++ b) = emittedCounts a ++ emittedCounts b := by
  simp [emittedCounts, List.filterMap_append]

/-- Counter soundness of single steps lifts to whole traces: the emitted
counts of a run are strictly increasing and bounded below by the initial
counter value. -/
theorem runTrace_counts {σ ι : Type} (idOf : σ → Nat)
    (step : σ → ι → σ × List Output × Option PyExc)
    (hok : StepCounterOK idOf step) :
    ∀ (inputs : List ι) (s : σ),
      idOf s ≤ idOf (runTrace step s inputs).1
      ∧ (∀ c ∈ emittedCounts (runTrace step s inputs).2,
          idOf s ≤ c ∧ c < idOf (runTrace step s inputs).1)
      ∧ List.Chain' (· < ·) (emittedCounts (runTrace step s inputs).2) := by
  intro inputs
  induction inputs with
  | nil => intro s; simp [runTrace, emittedCounts]
  | cons i rest ih =>
      intro s
      obtain ⟨h1, h2, h3⟩ := hok s i
      obtain ⟨ih1, ih2, ih3⟩ := ih (step s i).1
      have hrun : runTrace step s (i :: rest)
          = ((runTrace step (step s i).1 rest).1,
             (step s i).2.1 ++ (runTrace step (step s i).1 rest).2) := by
        simp only [runTrace]
      rw [hrun]
      refine ⟨le_trans h1 ih1, ?_, ?_⟩
      · intro c hc
        rw [emittedCounts_append, List.mem_append] at hc
        rcases hc with hc | hc
        · exact ⟨(h2 c hc).1, lt_of_lt_of_le (h2 c hc).2 ih1⟩
        · exact ⟨le_trans h1 (ih2 c hc).1, (ih2 c hc).2⟩
      · rw [emittedCounts_append]
        refine List.Chain'.append h3 ih3 ?_
        intro x hx y hy
        have hx' := h2 x (List.mem_of_mem_getLast? hx)
        have hy' := ih2 y (List.mem_of_mem_head? hy)
        exact lt_of_lt_of_le hx'.2 hy'.1

/-- `validate` can only succeed with its own input. -/
theorem validate_ok_inp {m r : Json} (h : validate m = .ok r) : r = m := by
  rcases validate_total m with hv | ⟨msg, hv⟩
  · rw [hv] at h
    exact (Except.ok.injEq _ _ ▸ h).symm
  · rw [hv] at h
    exact absurd h (by simp)

/-- Counter soundness of the Hub's `_process__execute_request` with the
stock handler table: the counter never decreases and the returned reply's
`execution_count`, when present, was drawn from the counter during the
call. -/
theorem hub_process_counts (st : HubState) (req : Json) :
    st.execute_reply_id
        ≤ (hub_process_execute_request hubHandlers st req).1.execute_reply_id
    ∧ ∀ c, countOf (hub_process_execute_request hubHandlers st req).2 = some c →
        st.execute_reply_id ≤ c ∧
          c < (hub_process_execute_request hubHandlers st req).1.execute_reply_id := by
  cases hj : jget2 req "content" "command" with
  | error e =>
      simp only [hub_process_execute_request, hj, HubState.draw,
        countOf_get_execute_reply]
      exact ⟨Nat.le_succ _, fun c hc => by
        rw [Option.some.injEq] at hc; omega⟩
  | ok v =>
      cases v with
      | str cmd =>
          by_cases hcmd : cmd = "register"
          · subst hcmd
            cases hsrc : jget2 req "header" "source" with
            | error e =>
                have hreg : hubHandlers "register" = some on_execute__register := rfl
                simp only [hub_process_execute_request, hj, hreg,
                  on_execute__register, hsrc, HubState.draw,
                  countOf_get_execute_reply]
                exact ⟨Nat.le_succ _, fun c hc => by
                  rw [Option.some.injEq] at hc; omega⟩
            | ok source =>
                by_cases hh : source.hashable = true
                · have hreg : hubHandlers "register" = some on_execute__register := rfl
                  have hcontent : get_execute_reply req st.execute_reply_id none
                      [("data", Json.obj [("result",
                        registryJson (jset st.registry source source))])]
                      = Json.obj [("header", replyHeader req "execute_reply"),
                          ("parent_header",
                            (req.lookup "header").getD (.obj [])),
                          ("content", .obj (replyContentList
                            st.execute_reply_id none [("data", Json.obj
                              [("result", registryJson (jset st.registry
                                source source))])]))] := rfl
                  simp only [hub_process_execute_request, hj, hreg,
                    on_execute__register, hsrc, hh, if_true, HubState.draw,
                    hcontent]
                  split
                  · next r heq =>
                      have hr := validate_ok_inp heq
                      subst hr
                      refine ⟨Nat.le_add_right _ 2, fun c hc => ?_⟩
                      rw [countOf_get_execute_reply_wrap,
                        Option.some.injEq] at hc
                      subst hc
                      exact ⟨Nat.le_succ _, Nat.lt_succ_self _⟩
                  · next ve heq =>
                      refine ⟨Nat.le_add_right _ 3, fun c hc => ?_⟩
                      rw [countOf_get_execute_reply, Option.some.injEq] at hc
                      subst hc
                      exact ⟨Nat.le_add_right _ 2, Nat.lt_succ_self _⟩
                · rw [Bool.not_eq_true] at hh
                  have hreg : hubHandlers "register" = some on_execute__register := rfl
                  simp only [hub_process_execute_request, hj, hreg,
                    on_execute__register, hsrc, hh,
                    Bool.false_eq_true, if_false, HubState.draw]
                  refine ⟨Nat.le_succ _, fun c hc => ?_⟩
                  rw [countOf_get_execute_reply, Option.some.injEq] at hc
                  omega
          · cases hvv : validate (get_execute_reply req st.execute_reply_id
              (some ⟨"NameError", "Unrecognized command: " ++ cmd⟩) []) with
            | ok r =>
                have hr := validate_ok_inp hvv
                subst hr
                have hnone : hubHandlers cmd = none := by
                  simp [hubHandlers, hcmd]
                simp only [hub_process_execute_request, hj, hnone,
                  HubState.draw, hvv]
                refine ⟨Nat.le_succ _, fun c hc => ?_⟩
                rw [countOf_get_execute_reply, Option.some.injEq] at hc
                omega
            | error ve =>
                have hnone : hubHandlers cmd = none := by
                  simp [hubHandlers, hcmd]
                simp only [hub_process_execute_request, hj, hnone,
                  HubState.draw, hvv]
                refine ⟨by omega, fun c hc => ?_⟩
                rw [countOf_get_execute_reply, Option.some.injEq] at hc
                omega
      | null =>
          simp only [hub_process_execute_request, hj, HubState.draw]
          exact ⟨Nat.le_succ _, fun c hc => by
            rw [countOf_get_execute_reply, Option.some.injEq] at hc; omega⟩
      | bool b =>
          simp only [hub_process_execute_request, hj, HubState.draw]
          exact ⟨Nat.le_succ _, fun c hc => by
            rw [countOf_get_execute_reply, Option.some.injEq] at hc; omega⟩
      | num n =>
          simp only [hub_process_execute_request, hj, HubState.draw]
          exact ⟨Nat.le_succ _, fun c hc => by
            rw [countOf_get_execute_reply, Option.some.injEq] at hc; omega⟩
      | arr l =>
          simp only [hub_process_execute_request, hj, HubState.draw]
          exact ⟨Nat.le_succ _, fun c hc => by
            rw [countOf_get_execute_reply, Option.some.injEq] at hc; omega⟩
      | obj o =>
          simp only [hub_process_execute_request, hj, HubState.draw]
          exact ⟨Nat.le_succ _, fun c hc => by
            rw [countOf_get_execute_reply, Option.some.injEq] at hc; omega⟩

theorem emittedCounts_publish_cons (tag : String) (d : PubData)
    (rest : List Output) :
    emittedCounts (Output.publish tag d :: rest) = emittedCounts rest := by
  simp [emittedCounts, List.filterMap_cons, outReplyMsg]

/-- Counter soundness of the Plugin's `_process__execute_request` with the
base-class (empty) handler table. -/
theorem plugin_process_counts (st : PluginState) (req : Json) :
    st.execute_reply_id
        ≤ (plugin_process_execute_request pluginHandlers st req).1.execute_reply_id
    ∧ (∀ c ∈ emittedCounts (plugin_process_execute_request pluginHandlers st req).2,
        st.execute_reply_id ≤ c ∧
          c < (plugin_process_execute_request pluginHandlers st req).1.execute_reply_id)
    ∧ List.Chain' (· < ·)
        (emittedCounts (plugin_process_execute_request pluginHandlers st req).2) := by
  cases hj : jget2 req "content" "command" with
  | error e =>
      simp only [plugin_process_execute_request, hj, PluginState.draw]
      refine ⟨Nat.le_succ _, ?_, ?_⟩
      · intro c hc
        rw [emittedCounts_pluginSend, countOf_get_execute_reply] at hc
        simp only [Option.toList, List.mem_singleton] at hc
        subst hc
        exact ⟨Nat.le.refl, Nat.lt_succ_self _⟩
      · rw [emittedCounts_pluginSend, countOf_get_execute_reply]
        simp [Option.toList]
  | ok v =>
      cases v with
      | str cmd =>
          have hnone : pluginHandlers cmd = none := rfl
          cases hvv : validate (get_execute_reply req st.execute_reply_id
              (some ⟨"NameError", "Unrecognized command: " ++ cmd⟩) []) with
          | ok r =>
              simp only [plugin_process_execute_request, hj, hnone,
                PluginState.draw, hvv]
              refine ⟨Nat.le_succ _, ?_, ?_⟩
              · intro c hc
                rw [emittedCounts_pluginSend, countOf_get_execute_reply] at hc
                simp only [Option.toList, List.mem_singleton] at hc
                subst hc
                exact ⟨Nat.le.refl, Nat.lt_succ_self _⟩
              · rw [emittedCounts_pluginSend, countOf_get_execute_reply]
                simp [Option.toList]
          | error ve =>
              simp only [plugin_process_execute_request, hj, hnone,
                PluginState.draw, hvv]
              refine ⟨Nat.le_add_right _ 2, ?_, ?_⟩
              · intro c hc
                rw [emittedCounts_pluginSend, countOf_get_execute_reply] at hc
                simp only [Option.toList, List.mem_singleton] at hc
                subst hc
                exact ⟨Nat.le_succ _, Nat.lt_succ_self _⟩
              · rw [emittedCounts_pluginSend, countOf_get_execute_reply]
                simp [Option.toList]
      | null =>
          simp only [plugin_process_execute_request, hj, PluginState.draw]
          refine ⟨Nat.le_succ _, ?_, ?_⟩
          · intro c hc
            rw [emittedCounts_pluginSend, countOf_get_execute_reply] at hc
            simp only [Option.toList, List.mem_singleton] at hc
            subst hc
            exact ⟨Nat.le.refl, Nat.lt_succ_self _⟩
          · rw [emittedCounts_pluginSend, countOf_get_execute_reply]
            simp [Option.toList]
      | bool b =>
          simp only [plugin_process_execute_request, hj, PluginState.draw]
          refine ⟨Nat.le_succ _, ?_, ?_⟩
          · intro c hc
            rw [emittedCounts_pluginSend, countOf_get_execute_reply] at hc
            simp only [Option.toList, List.mem_singleton] at hc
            subst hc
            exact ⟨Nat.le.refl, Nat.lt_succ_self _⟩
          · rw [emittedCounts_pluginSend, countOf_get_execute_reply]
            simp [Option.toList]
      | num n =>
          simp only [plugin_process_execute_request, hj, PluginState.draw]
          refine ⟨Nat.le_succ _, ?_, ?_⟩
          · intro c hc
            rw [emittedCounts_pluginSend, countOf_get_execute_reply] at hc
            simp only [Option.toList, List.mem_singleton] at hc
            subst hc
            exact ⟨Nat.le.refl, Nat.lt_succ_self _⟩
          · rw [emittedCounts_pluginSend, countOf_get_execute_reply]
            simp [Option.toList]
      | arr l =>
          simp only [plugin_process_execute_request, hj, PluginState.draw]
          refine ⟨Nat.le_succ _, ?_, ?_⟩
          · intro c hc
            rw [emittedCounts_pluginSend, countOf_get_execute_reply] at hc
            simp only [Option.toList, List.mem_singleton] at hc
            subst hc
            exact ⟨Nat.le.refl, Nat.lt_succ_self _⟩
          · rw [emittedCounts_pluginSend, countOf_get_execute_reply]
            simp [Option.toList]
      | obj o =>
          simp only [plugin_process_execute_request, hj, PluginState.draw]
          refine ⟨Nat.le_succ _, ?_, ?_⟩
          · intro c hc
            rw [emittedCounts_pluginSend, countOf_get_execute_reply] at hc
            simp only [Option.toList, List.mem_singleton] at hc
            subst hc
            exact ⟨Nat.le.refl, Nat.lt_succ_self _⟩
          · rw [emittedCounts_pluginSend, countOf_get_execute_reply]
            simp [Option.toList]

/-- `_process__execute_reply` never touches the counter and never emits a
reply message (its only possible output is a callback invocation). -/
theorem plugin_reply_counts (st : PluginState) (reply : Json) :
    (plugin_process_execute_reply st reply).1 = st
    ∧ emittedCounts (plugin_process_execute_reply st reply).2 = [] := by
  cases h1 : jget reply "header" with
  | error e => simp [plugin_process_execute_reply, h1, emittedCounts]
  | ok h =>
      cases h2 : jget h "session_id" with
      | error e => simp [plugin_process_execute_reply, h1, h2, emittedCounts]
      | ok sid =>
          cases sid with
          | str s =>
              cases h3 : cblookup st.callbacks s with
              | none =>
                  simp [plugin_process_execute_reply, h1, h2, h3, emittedCounts]
              | some cb =>
                  simp [plugin_process_execute_reply, h1, h2, h3, emittedCounts,
                    List.filterMap, outReplyMsg]
          | null => simp [plugin_process_execute_reply, h1, h2, emittedCounts]
          | bool b => simp [plugin_process_execute_reply, h1, h2, emittedCounts]
          | num n => simp [plugin_process_execute_reply, h1, h2, emittedCounts]
          | arr l => simp [plugin_process_execute_reply, h1, h2, emittedCounts]
          | obj o => simp [plugin_process_execute_reply, h1, h2, emittedCounts]

theorem pluginDispatch_counts (st : PluginState) (message : Json) :
    st.execute_reply_id
        ≤ (pluginDispatch pluginHandlers st message).1.execute_reply_id
    ∧ (∀ c ∈ emittedCounts (pluginDispatch pluginHandlers st message).2.1,
        st.execute_reply_id ≤ c ∧
          c < (pluginDispatch pluginHandlers st message).1.execute_reply_id)
    ∧ List.Chain' (· < ·)
        (emittedCounts (pluginDispatch pluginHandlers st message).2.1) := by
  cases hmt : jget2 message "header" "msg_type" with
  | error e => simp [pluginDispatch, hmt, emittedCounts]
  | ok v =>
      cases v with
      | str s =>
          by_cases hreq : s = "execute_request"
          · subst hreq
            rcases hp : plugin_process_execute_request pluginHandlers st message
              with ⟨st1, outs⟩
            obtain ⟨p1, p2, p3⟩ := plugin_process_counts st message
            rw [hp] at p1 p2 p3
            simp only [pluginDispatch, hmt, if_pos rfl, hp]
            exact ⟨p1, p2, p3⟩
          · by_cases hrep : s = "execute_reply"
            · subst hrep
              rcases hp : plugin_process_execute_reply st message with ⟨st1, outs⟩
              obtain ⟨p1, p2⟩ := plugin_reply_counts st message
              rw [hp] at p1 p2
              simp only [pluginDispatch, hmt, if_neg hreq, if_pos rfl, hp]
              subst p1
              simp [p2]
            · simp only [pluginDispatch, hmt, if_neg hreq, if_neg hrep]
              simp [emittedCounts]
      | null => simp [pluginDispatch, hmt, emittedCounts]
      | bool b => simp [pluginDispatch, hmt, emittedCounts]
      | num n => simp [pluginDispatch, hmt, emittedCounts]
      | arr l => simp [pluginDispatch, hmt, emittedCounts]
      | obj o => simp [pluginDispatch, hmt, emittedCounts]

theorem pluginOnCommandRecv_counter_ok :
    StepCounterOK PluginState.execute_reply_id
      (pluginOnCommandRecv pluginHandlers) := by
  intro s frames
  cases hlast : frames.getLast? with
  | none => simp [pluginOnCommandRecv, hlast, emittedCounts]
  | some f =>
      cases hload : json_loads f with
      | error e => simp [pluginOnCommandRecv, hlast, hload, emittedCounts]
      | ok message =>
          obtain ⟨p1, p2, p3⟩ := pluginDispatch_counts s message
          cases hvv : validate message with
          | ok r =>
              simp only [pluginOnCommandRecv, hlast, hload, hvv]
              exact ⟨p1, p2, p3⟩
          | error e =>
              by_cases he : e.ename = "ValidationError"
              · simp only [pluginOnCommandRecv, hlast, hload, hvv, he,
                  if_pos rfl]
                exact ⟨p1, p2, p3⟩
              · simp only [pluginOnCommandRecv, hlast, hload, hvv, if_neg he]
                simp [emittedCounts]

/-- Counter soundness of the Hub query-path processing block. -/
theorem hubQuerySecondTry_counts (st : HubState) (req : Json) :
    st.execute_reply_id ≤ (hubQuerySecondTry st req).1.execute_reply_id
    ∧ (∀ c ∈ emittedCounts (hubQuerySecondTry st req).2,
        st.execute_reply_id ≤ c ∧
          c < (hubQuerySecondTry st req).1.execute_reply_id)
    ∧ List.Chain' (· < ·) (emittedCounts (hubQuerySecondTry st req).2) := by
  cases hj : jget2 req "header" "msg_type" with
  | error e =>
      simp [hubQuerySecondTry, hj, reset_query_socket, emittedCounts]
  | ok v =>
      cases v with
      | str mt =>
          by_cases hconn : mt = "connect_request"
          · subst hconn
            cases hsrcq : jget2 req "header" "source" with
            | error e =>
                simp [hubQuerySecondTry, hj, hsrcq, reset_query_socket,
                  emittedCounts]
            | ok source =>
                cases hh : source.hashable with
                | false =>
                    simp [hubQuerySecondTry, hj, hsrcq, hh, reset_query_socket,
                      emittedCounts]
                | true =>
                    cases hvv : validate (get_connect_reply req (socketInfo
                      { st with registry := jset st.registry source source })) with
                    | ok r =>
                        simp [hubQuerySecondTry, hj, hsrcq, hh, hvv,
                          emittedCounts_querySendOuts,
                          countOf_get_connect_reply, Option.toList]
                    | error ve =>
                        simp [hubQuerySecondTry, hj, hsrcq, hh, hvv,
                          reset_query_socket, emittedCounts]
          · by_cases hexec : mt = "execute_request"
            · subst hexec
              rcases hp : hub_process_execute_request hubHandlers st req
                with ⟨st1, reply⟩
              obtain ⟨p1, p2⟩ := hub_process_counts st req
              rw [hp] at p1 p2
              simp only [hubQuerySecondTry, hj, if_neg hconn, if_pos rfl,
                ite_true, hp]
              refine ⟨p1, ?_, ?_⟩
              · intro c hc
                rw [emittedCounts_querySendOuts] at hc
                cases hcnt : countOf reply with
                | none => rw [hcnt] at hc; simp [Option.toList] at hc
                | some n =>
                    rw [hcnt] at hc
                    simp only [Option.toList, List.mem_singleton] at hc
                    subst hc
                    exact p2 _ hcnt
              · rw [emittedCounts_querySendOuts]
                cases countOf reply <;> simp [Option.toList]
            · simp only [hubQuerySecondTry, hj, if_neg hconn, if_neg hexec]
              simp [reset_query_socket, emittedCounts]
      | null => simp [hubQuerySecondTry, hj, reset_query_socket, emittedCounts]
      | bool b => simp [hubQuerySecondTry, hj, reset_query_socket, emittedCounts]
      | num n => simp [hubQuerySecondTry, hj, reset_query_socket, emittedCounts]
      | arr l => simp [hubQuerySecondTry, hj, reset_query_socket, emittedCounts]
      | obj o => simp [hubQuerySecondTry, hj, reset_query_socket, emittedCounts]

theorem hubOnQueryRecv_counter_ok :
    StepCounterOK HubState.execute_reply_id hubOnQueryRecv := by
  intro s frames
  cases hhead : frames.head? with
  | none => simp [hubOnQueryRecv, hhead, emittedCounts, outReplyMsg,
      List.filterMap]
  | some f =>
      cases hload : json_loads f with
      | error e => simp [hubOnQueryRecv, hhead, hload, emittedCounts,
          outReplyMsg, List.filterMap]
      | ok request =>
          cases hvv : validate request with
          | ok r =>
              rcases hq : hubQuerySecondTry s request with ⟨st2, outs⟩
              obtain ⟨q1, q2, q3⟩ := hubQuerySecondTry_counts s request
              rw [hq] at q1 q2 q3
              simp only [hubOnQueryRecv, hhead, hload, hvv, hq,
                emittedCounts_publish_cons]
              exact ⟨q1, q2, q3⟩
          | error e =>
              by_cases he : e.ename = "ValidationError"
              · rcases hq : hubQuerySecondTry (reset_query_socket s) request
                  with ⟨st2, outs⟩
                obtain ⟨q1, q2, q3⟩ :=
                  hubQuerySecondTry_counts (reset_query_socket s) request
                rw [hq] at q1 q2 q3
                simp only [hubOnQueryRecv, hhead, hload, hvv, he, if_pos rfl,
                  hq, emittedCounts_publish_cons]
                exact ⟨q1, q2, q3⟩
              · simp only [hubOnQueryRecv, hhead, hload, hvv, if_neg he]
                simp [emittedCounts, outReplyMsg, List.filterMap]

/-!
## The claims
-/

/-- C10: `validate` is total modulo validation errors — on every input it
either returns that same input or fails with a `ValidationError`; the
subscripts after base validation can never raise a missing-key error, and
the per-type validator lookup always succeeds because the `msg_type` enum is
exactly the key set of `MESSAGE_VALIDATORS` besides `base_message`. -/
theorem C10_validate_total :
    (∀ j, validate j = .ok j ∨ ∃ m, validate j = .error (validationError m))
    ∧ MESSAGE_VALIDATORS.map Prod.fst = "base_message" :: msgTypeEnum
    ∧ (∀ j, checkBaseMessage j = true →
        ∃ hd mt, jget j "header" = .ok hd ∧ jget hd "msg_type" = .ok (.str mt) ∧
          mt ∈ msgTypeEnum ∧
          lookupValidator MESSAGE_VALIDATORS mt = some (definitionChecker mt)) :=
  ⟨validate_total, rfl, fun _ hb => base_valid_lookups hb⟩

/-- C10 witness: the totality disjunction at a non-object input, and the
lookup guarantees at a concrete base-valid message. -/
theorem C10_witness :
    (validate (Json.num 3) = .ok (Json.num 3) ∨
      ∃ m, validate (Json.num 3) = .error (validationError m))
    ∧ (∃ hd mt, jget sampleConnectReq "header" = .ok hd ∧
        jget hd "msg_type" = .ok (.str mt) ∧ mt ∈ msgTypeEnum ∧
        lookupValidator MESSAGE_VALIDATORS mt = some (definitionChecker mt)) :=
  ⟨C10_validate_total.1 (Json.num 3), C10_validate_total.2.2 sampleConnectReq rfl⟩

/-- C6: for every well-formed message `m` of each of the four message types,
`validate m` returns `m` itself (no mutation, coercion or repair), and
removing any required field — the top-level `header` (and `content` where
required), any of the seven required header sub-fields, or a field the
schema marks required inside the type's `content` — makes `validate` fail
with a `ValidationError` (a distinguishable schema error) instead of
returning. -/
theorem C6_validation_roundtrip (m : Json) (t : String)
    (hok : (validate m).isOk = true) (ht : msgTypeOf m = some t) :
    validate m = .ok m
    ∧ (∀ k ∈ requiredTopFields t, ∃ msg,
        validate (m.removeField k) = .error (validationError msg))
    ∧ (∀ k ∈ headerRequired, ∃ msg,
        validate (removeHeaderField m k) = .error (validationError msg))
    ∧ (∀ k ∈ requiredContentFields t, (m.lookup "content").isSome = true →
        ∃ msg, validate (removeContentField m k) = .error (validationError msg)) := by
  have hvm : validate m = .ok m := validate_isOk_eq hok
  obtain ⟨hb, hd, mt, h1, h2, hmem, hchk⟩ := validate_ok_elim hvm
  obtain ⟨kvs, hd', hobj, hhd, hch⟩ := checkBaseMessage_elim hb
  subst hobj
  obtain rfl : hd' = hd := by simpa [jget, hhd] using h1
  obtain ⟨hkvs, rfl⟩ := checkHeader_obj hch
  have hmt : Json.alookup hkvs "msg_type" = some (.str mt) := by
    cases hv : Json.alookup hkvs "msg_type" with
    | none =>
        rw [show jget (.obj hkvs) "msg_type"
          = (match Json.alookup hkvs "msg_type" with
             | some v => Except.ok v
             | none => Except.error ⟨"KeyError", "msg_type"⟩) from rfl, hv] at h2
        simp at h2
    | some v =>
        rw [show jget (.obj hkvs) "msg_type"
          = (match Json.alookup hkvs "msg_type" with
             | some v => Except.ok v
             | none => Except.error ⟨"KeyError", "msg_type"⟩) from rfl, hv] at h2
        rw [Except.ok.injEq] at h2
        rw [h2]
  obtain rfl : t = mt := by
    have hmtof : msgTypeOf (Json.obj kvs) = some mt := by
      simp [msgTypeOf, headerField, Json.lookup, hhd, hmt]
    rw [ht] at hmtof
    simpa using hmtof
  -- removal of a required header sub-field falsifies the base schema
  have hHdr : ∀ k ∈ headerRequired, ∃ msg,
      validate (removeHeaderField (Json.obj kvs) k)
        = .error (validationError msg) := by
    intro k hk
    refine ⟨"base_message", ?_⟩
    have hrm : removeHeaderField (Json.obj kvs) k
        = .obj (Json.aset kvs "header" (.obj (Json.aremove hkvs k))) := by
      simp [removeHeaderField, Json.lookup, hhd, Json.setField, Json.removeField]
    rw [hrm]
    exact validate_error_of_base_false
      (checkBaseMessage_bad_header (Json.alookup_aset_self _ _ _)
        (checkHeader_missing hk (Json.alookup_aremove_self hkvs k)))
  -- removal of the top-level header falsifies the base schema
  have hTopH : ∃ msg, validate ((Json.obj kvs).removeField "header")
      = .error (validationError msg) := by
    refine ⟨"base_message", ?_⟩
    apply validate_error_of_base_false
    simp [checkBaseMessage,
      reqAll_false (show "header" ∈ ["header"] by simp)
        (Json.alookup_aremove_self kvs "header"), Json.removeField]
  -- base validity of the message with `content` removed, and the header
  -- lookup on it (shared by the reply-type branches below)
  have hbNoC : checkBaseMessage (.obj (Json.aremove kvs "content")) = true :=
    checkBaseMessage_intro hb
      (Json.alookup_aremove_ne _ _ _ (by decide))
      (Json.alookup_aremove_ne _ _ _ (by decide))
      (Json.alookup_aremove_ne _ _ _ (by decide))
      (by simp [optObj, optCheck, Json.alookup_aremove_self])
  have h1NoC : jget (.obj (Json.aremove kvs "content")) "header"
      = .ok (.obj hkvs) := by
    simp [jget, Json.alookup_aremove_ne _ _ _
      (show "header" ≠ "content" by decide), hhd]
  -- base validity of the message with a field removed inside `content`,
  -- and the header lookup on it
  have hbSetC : ∀ c : Json, c.isObj = true →
      checkBaseMessage (.obj (Json.aset kvs "content" c)) = true := by
    intro c hc
    exact checkBaseMessage_intro hb
      (Json.alookup_aset_ne _ _ _ _ (by decide))
      (Json.alookup_aset_ne _ _ _ _ (by decide))
      (Json.alookup_aset_ne _ _ _ _ (by decide))
      (by simp [optObj, optCheck, Json.alookup_aset_self, hc])
  have h1SetC : ∀ c : Json, jget (.obj (Json.aset kvs "content" c)) "header"
      = .ok (.obj hkvs) := by
    intro c
    simp [jget, Json.alookup_aset_ne _ _ _ _
      (show "header" ≠ "content" by decide), hhd]
  have hmem' := hmem
  simp only [msgTypeEnum, List.mem_cons, List.mem_singleton,
    List.not_mem_nil, or_false] at hmem'
  rcases hmem' with rfl | rfl | rfl | rfl
  -- connect_request
  · refine ⟨hvm, ?_, hHdr, ?_⟩
    · intro k hk
      fin_cases hk
      exact hTopH
    · intro k hk
      simp [requiredContentFields] at hk
  -- connect_reply
  · refine ⟨hvm, ?_, hHdr, ?_⟩
    · intro k hk
      fin_cases hk
      · exact hTopH
      · refine ⟨"connect_reply", ?_⟩
        have hrm : (Json.obj kvs).removeField "content"
            = .obj (Json.aremove kvs "content") := rfl
        rw [hrm]
        refine validate_error_type hbNoC h1NoC h2 hmem ?_
        simp [definitionChecker, checkConnectReply,
          reqAll_false (show "content" ∈ ["content"] by simp)
            (Json.alookup_aremove_self kvs "content")]
    · intro k hk hcp
      cases hct : Json.alookup kvs "content" with
      | none => simp [Json.lookup, hct] at hcp
      | some ct =>
          obtain ⟨ckvs, rfl⟩ := checkBaseMessage_content_obj hb hct
          fin_cases hk
          · refine ⟨"connect_reply", ?_⟩
            have hrm : removeContentField (Json.obj kvs) "command"
                = .obj (Json.aset kvs "content"
                    (.obj (Json.aremove ckvs "command"))) := by
              simp [removeContentField, Json.lookup, hct, Json.setField,
                Json.removeField]
            rw [hrm]
            refine validate_error_type (hbSetC _ rfl) (h1SetC _) h2 hmem ?_
            simp only [definitionChecker, checkConnectReply,
              checkConnectReplyContent, Json.alookup_aset_self]
            simp [reqAll_false (show "command" ∈ ["command", "publish"] by simp)
              (Json.alookup_aremove_self ckvs "command")]
          · refine ⟨"connect_reply", ?_⟩
            have hrm : removeContentField (Json.obj kvs) "publish"
                = .obj (Json.aset kvs "content"
                    (.obj (Json.aremove ckvs "publish"))) := by
              simp [removeContentField, Json.lookup, hct, Json.setField,
                Json.removeField]
            rw [hrm]
            refine validate_error_type (hbSetC _ rfl) (h1SetC _) h2 hmem ?_
            simp only [definitionChecker, checkConnectReply,
              checkConnectReplyContent, Json.alookup_aset_self]
            simp [reqAll_false (show "publish" ∈ ["command", "publish"] by simp)
              (Json.alookup_aremove_self ckvs "publish")]
  -- execute_request
  · refine ⟨hvm, ?_, hHdr, ?_⟩
    · intro k hk
      fin_cases hk
      exact hTopH
    · intro k hk hcp
      cases hct : Json.alookup kvs "content" with
      | none => simp [Json.lookup, hct] at hcp
      | some ct =>
          obtain ⟨ckvs, rfl⟩ := checkBaseMessage_content_obj hb hct
          fin_cases hk
          refine ⟨"execute_request", ?_⟩
          have hrm : removeContentField (Json.obj kvs) "command"
              = .obj (Json.aset kvs "content"
                  (.obj (Json.aremove ckvs "command"))) := by
            simp [removeContentField, Json.lookup, hct, Json.setField,
              Json.removeField]
          rw [hrm]
          refine validate_error_type (hbSetC _ rfl) (h1SetC _) h2 hmem ?_
          simp only [definitionChecker, checkExecuteRequest,
            checkExecuteRequestContent, Json.alookup_aset_self]
          simp [reqAll_false (show "command" ∈ ["command"] by simp)
            (Json.alookup_aremove_self ckvs "command")]
  -- execute_reply
  · refine ⟨hvm, ?_, hHdr, ?_⟩
    · intro k hk
      fin_cases hk
      · exact hTopH
      · refine ⟨"execute_reply", ?_⟩
        have hrm : (Json.obj kvs).removeField "content"
            = .obj (Json.aremove kvs "content") := rfl
        rw [hrm]
        refine validate_error_type hbNoC h1NoC h2 hmem ?_
        simp [definitionChecker, checkExecuteReply,
          reqAll_false (show "content" ∈ ["content"] by simp)
            (Json.alookup_aremove_self kvs "content")]
    · intro k hk hcp
      cases hct : Json.alookup kvs "content" with
      | none => simp [Json.lookup, hct] at hcp
      | some ct =>
          obtain ⟨ckvs, rfl⟩ := checkBaseMessage_content_obj hb hct
          fin_cases hk
          · refine ⟨"execute_reply", ?_⟩
            have hrm : removeContentField (Json.obj kvs) "status"
                = .obj (Json.aset kvs "content"
                    (.obj (Json.aremove ckvs "status"))) := by
              simp [removeContentField, Json.lookup, hct, Json.setField,
                Json.removeField]
            rw [hrm]
            refine validate_error_type (hbSetC _ rfl) (h1SetC _) h2 hmem ?_
            simp only [definitionChecker, checkExecuteReply,
              checkExecuteReplyContent, Json.alookup_aset_self]
            simp [reqAll_false
              (show "status" ∈ ["status", "execution_count"] by simp)
              (Json.alookup_aremove_self ckvs "status")]
          · refine ⟨"execute_reply", ?_⟩
            have hrm : removeContentField (Json.obj kvs) "execution_count"
                = .obj (Json.aset kvs "content"
                    (.obj (Json.aremove ckvs "execution_count"))) := by
              simp [removeContentField, Json.lookup, hct, Json.setField,
                Json.removeField]
            rw [hrm]
            refine validate_error_type (hbSetC _ rfl) (h1SetC _) h2 hmem ?_
            simp only [definitionChecker, checkExecuteReply,
              checkExecuteReplyContent, Json.alookup_aset_self]
            simp [reqAll_false
              (show "execution_count" ∈ ["status", "execution_count"] by simp)
              (Json.alookup_aremove_self ckvs "execution_count")]

/-- C6 witness: the round-trip and required-field failures at a concrete
`execute_request`. -/
theorem C6_witness :
    (validate sampleRegisterReq).isOk = true
    ∧ msgTypeOf sampleRegisterReq = some "execute_request"
    ∧ validate sampleRegisterReq = .ok sampleRegisterReq
    ∧ (∃ msg, validate (sampleRegisterReq.removeField "header")
        = .error (validationError msg))
    ∧ (∃ msg, validate (removeHeaderField sampleRegisterReq "session")
        = .error (validationError msg))
    ∧ (∃ msg, validate (removeContentField sampleRegisterReq "command")
        = .error (validationError msg)) :=
  have h := C6_validation_roundtrip sampleRegisterReq "execute_request" rfl rfl
  ⟨rfl, rfl, h.1,
   h.2.1 "header" (by decide),
   h.2.2.1 "session" (by decide),
   h.2.2.2 "command" (by decide) rfl⟩

/-- C7 counterexample: "starting at 1 immediately after reset()" fails on
the code.  A `register` request as the first query after `reset()` draws
the counter once inside `on_execute__register` (hub.py line 218) and again
in the `_process__execute_request` wrapper (hub.py line 170), so the very
first emitted reply carries `execution_count` 2, not 1. -/
theorem C7_counterexample :
    (emittedCounts (hubOnQueryRecv (hubReset hubInit)
        [.jsonText sampleRegisterReq]).2.1).head? = some 2
    ∧ (2 : Nat) ≠ 1 :=
  ⟨rfl, by decide⟩

/-- C7 (amended): `reset()` re-initializes the counter so that its next
drawn value is 1, and within one epoch the successive `execute_reply`
messages a Hub (query path) or base Plugin (command path) emits carry
strictly increasing — hence never reused — `execution_count` values, all
≥ 1; but the first emitted value need not be 1, because extra counter draws
can precede the emission (the register handler's own draw, or an error
reply that itself fails validation and is rebuilt). -/
theorem C7_counter_monotonic (st0 : HubState) (stp0 : PluginState)
    (qinputs cinputs : List (List Frame)) :
    (hubReset st0).execute_reply_id = 1
    ∧ (pluginResetCounter stp0).execute_reply_id = 1
    ∧ List.Chain' (· < ·)
        (emittedCounts (runTrace hubOnQueryRecv (hubReset st0) qinputs).2)
    ∧ (∀ c ∈ emittedCounts (runTrace hubOnQueryRecv (hubReset st0) qinputs).2,
        1 ≤ c)
    ∧ List.Chain' (· < ·)
        (emittedCounts (runTrace (pluginOnCommandRecv pluginHandlers)
          (pluginResetCounter stp0) cinputs).2)
    ∧ (∀ c ∈ emittedCounts (runTrace (pluginOnCommandRecv pluginHandlers)
          (pluginResetCounter stp0) cinputs).2, 1 ≤ c) := by
  obtain ⟨h1, h2, h3⟩ := runTrace_counts HubState.execute_reply_id
    hubOnQueryRecv hubOnQueryRecv_counter_ok qinputs (hubReset st0)
  obtain ⟨g1, g2, g3⟩ := runTrace_counts PluginState.execute_reply_id
    (pluginOnCommandRecv pluginHandlers) pluginOnCommandRecv_counter_ok
    cinputs (pluginResetCounter stp0)
  refine ⟨rfl, rfl, h3, ?_, g3, ?_⟩
  · intro c hc
    exact (h2 c hc).1
  · intro c hc
    exact (g2 c hc).1

/-- C8: registering the same plugin name `n` twice — whether through
`on_execute__register` or through the `connect_request` branch of the query
path, both of which perform `self.registry[source] = source` — leaves the
registry with exactly one entry for `n`; the second registration changes
the registry not at all; a first registration of an absent name appends it
(other entries keep their positions) and of a present name preserves the
key sequence exactly; no entry is ever removed.  The hypothesis
`countKey ≤ 1` says `n` is not already duplicated, which holds of every
reachable registry. -/
theorem C8_registry_idempotent (st : HubState) (n : String) (req req2 : Json)
    (hsrc : jget2 req "header" "source" = .ok (.str n))
    (hcount : countKey st.registry (.str n) ≤ 1)
    (hmt2 : jget2 req2 "header" "msg_type" = .ok (.str "connect_request"))
    (hsrc2 : jget2 req2 "header" "source" = .ok (.str n)) :
    (on_execute__register st req).1.registry
        = jset st.registry (.str n) (.str n)
    ∧ countKey (on_execute__register st req).1.registry (.str n) = 1
    ∧ (on_execute__register (on_execute__register st req).1 req).1.registry
        = (on_execute__register st req).1.registry
    ∧ (countKey st.registry (.str n) = 0 →
        (on_execute__register st req).1.registry
          = st.registry ++ [(.str n, .str n)])
    ∧ (countKey st.registry (.str n) = 1 →
        (on_execute__register st req).1.registry.map Prod.fst
          = st.registry.map Prod.fst)
    ∧ (∀ x ∈ st.registry.map Prod.fst,
        x ∈ (on_execute__register st req).1.registry.map Prod.fst)
    ∧ (hubQuerySecondTry st req2).1.registry
        = jset st.registry (.str n) (.str n) := by
  have hk : Json.keyEq (.str n) (.str n) = true := by simp [Json.keyEq]
  have hreg : ∀ s : HubState,
      (on_execute__register s req).1.registry
        = jset s.registry (.str n) (.str n) := by
    intro s
    simp [on_execute__register, hsrc, Json.hashable, HubState.draw]
  refine ⟨hreg st, ?_, ?_, ?_, ?_, ?_, ?_⟩
  · rw [hreg st]; exact countKey_jset_eq_one hk hcount
  · rw [hreg _, hreg st, jset_idem _ _ _ hk]
  · intro hz; rw [hreg st, jset_absent hz]
  · intro h1; rw [hreg st]
    exact jset_present_keys (by omega)
  · intro x hx; rw [hreg st]; exact jset_mem_keys hx
  · simp only [hubQuerySecondTry, hmt2, hsrc2]
    simp only [if_pos rfl, Json.hashable]
    cases validate (get_connect_reply req2 (socketInfo
        { st with registry := jset st.registry (.str n) (.str n) })) with
    | ok r => simp
    | error e => simp [reset_query_socket]

/-- C9: for every validated `execute_request` whose `content.command` names
no handler on the receiving Hub or Plugin, and for every request whose
handler raises, the dispatch routine returns normally (the stated equations
are total — no fault propagates) with a well-formed `execute_reply` whose
`content.status` is `"error"` and whose `content.error.ename` names the
unrecognized command (`NameError`, with the command in `evalue`) or the
raised exception, addressed back to the original caller (reply
`header.target` = request `header.source`). -/
theorem C9_error_reply_contract (H : HubTable) (PH : PluginTable)
    (sth : HubState) (stp : PluginState) (req : Json) (c : String)
    (hv : validate req = .ok req)
    (hcmd : jget2 req "content" "command" = .ok (.str c)) :
    (∀ (n : Nat) (e : PyExc),
      contentField (get_execute_reply req n (some e) []) "status"
          = some (.str "error")
      ∧ errorField (get_execute_reply req n (some e) []) "ename"
          = some (.str e.ename)
      ∧ errorField (get_execute_reply req n (some e) []) "evalue"
          = some (.str e.evalue)
      ∧ validate (get_execute_reply req n (some e) [])
          = .ok (get_execute_reply req n (some e) [])
      ∧ headerField (get_execute_reply req n (some e) []) "target"
          = headerField req "source"
      ∧ headerField (get_execute_reply req n (some e) []) "source"
          = headerField req "target")
    ∧ (H c = none →
        hub_process_execute_request H sth req =
          ({ sth with execute_reply_id := sth.execute_reply_id + 1 },
           get_execute_reply req sth.execute_reply_id
             (some ⟨"NameError", "Unrecognized command: " ++ c⟩) []))
    ∧ (∀ (f : HubHandler) (st1 : HubState) (e : PyExc), H c = some f →
        f sth req = (st1, .error e) →
        hub_process_execute_request H sth req =
          ({ st1 with execute_reply_id := st1.execute_reply_id + 1 },
           get_execute_reply req st1.execute_reply_id (some e) []))
    ∧ (PH c = none →
        plugin_process_execute_request PH stp req =
          ({ stp with execute_reply_id := stp.execute_reply_id + 1 },
           [.commandSend [.text "hub", .text "",
              .jsonText (get_execute_reply req stp.execute_reply_id
                (some ⟨"NameError", "Unrecognized command: " ++ c⟩) [])]]))
    ∧ (∀ (g : PluginHandler) (stq : PluginState) (e : PyExc), PH c = some g →
        g stp req = (stq, .error e) →
        plugin_process_execute_request PH stp req =
          ({ stq with execute_reply_id := stq.execute_reply_id + 1 },
           [.commandSend [.text "hub", .text "",
              .jsonText (get_execute_reply req stq.execute_reply_id
                (some e) [])]])) := by
  have hb := validate_ok_base hv
  obtain ⟨kvs, hd, hobj, hhd, hch⟩ := checkBaseMessage_elim hb
  subst hobj
  obtain ⟨hkvs, hdobj⟩ := checkHeader_obj hch
  subst hdobj
  have hlook : (Json.obj kvs).lookup "header" = some (.obj hkvs) := by
    simpa [Json.lookup] using hhd
  have hval : ∀ (n : Nat) (e : PyExc),
      validate (get_execute_reply (.obj kvs) n (some e) [])
        = .ok (get_execute_reply (.obj kvs) n (some e) []) :=
    fun n e => validate_get_execute_reply n (some e) [] hlook hch rfl rfl rfl
  obtain ⟨s, hs⟩ := checkHeader_str_field hch (by simp : "source" ∈ _)
  obtain ⟨t, ht⟩ := checkHeader_str_field hch (by simp : "target" ∈ _)
  refine ⟨?_, ?_, ?_, ?_, ?_⟩
  · intro n e
    refine ⟨rfl, rfl, rfl, hval n e, ?_, ?_⟩
    · simp [headerField, get_execute_reply, replyHeader, Json.lookup,
        Json.alookup, Option.bind, hhd, strField, hs]
    · simp [headerField, get_execute_reply, replyHeader, Json.lookup,
        Json.alookup, Option.bind, hhd, strField, ht]
  · intro hH
    simp only [hub_process_execute_request, hcmd, hH, HubState.draw]
    rw [hval sth.execute_reply_id ⟨"NameError", "Unrecognized command: " ++ c⟩]
  · intro f st1 e hf hfe
    simp only [hub_process_execute_request, hcmd, hf, hfe, HubState.draw]
  · intro hPH
    simp only [plugin_process_execute_request, hcmd, hPH, PluginState.draw]
    rw [hval stp.execute_reply_id ⟨"NameError", "Unrecognized command: " ++ c⟩]
  · intro g stq e hg hge
    simp only [plugin_process_execute_request, hcmd, hg, hge, PluginState.draw]

/-- C9 witness: a `doesNotExist` command against the stock Hub and Plugin
tables. -/
theorem C9_witness :
    (contentField (get_execute_reply sampleUnknownReq 1
        (some ⟨"NameError", "Unrecognized command: doesNotExist"⟩) []) "status"
      = some (.str "error")
    ∧ errorField (get_execute_reply sampleUnknownReq 1
        (some ⟨"NameError", "Unrecognized command: doesNotExist"⟩) []) "ename"
      = some (.str "NameError")
    ∧ errorField (get_execute_reply sampleUnknownReq 1
        (some ⟨"NameError", "Unrecognized command: doesNotExist"⟩) []) "evalue"
      = some (.str "Unrecognized command: doesNotExist")
    ∧ validate (get_execute_reply sampleUnknownReq 1
        (some ⟨"NameError", "Unrecognized command: doesNotExist"⟩) [])
      = .ok (get_execute_reply sampleUnknownReq 1
        (some ⟨"NameError", "Unrecognized command: doesNotExist"⟩) [])
    ∧ headerField (get_execute_reply sampleUnknownReq 1
        (some ⟨"NameError", "Unrecognized command: doesNotExist"⟩) []) "target"
      = headerField sampleUnknownReq "source"
    ∧ headerField (get_execute_reply sampleUnknownReq 1
        (some ⟨"NameError", "Unrecognized command: doesNotExist"⟩) []) "source"
      = headerField sampleUnknownReq "target")
    ∧ hub_process_execute_request hubHandlers hubInit sampleUnknownReq =
        ({ hubInit with execute_reply_id := hubInit.execute_reply_id + 1 },
         get_execute_reply sampleUnknownReq hubInit.execute_reply_id
           (some ⟨"NameError", "Unrecognized command: doesNotExist"⟩) [])
    ∧ plugin_process_execute_request pluginHandlers pluginInit
        sampleUnknownReq =
        ({ pluginInit with execute_reply_id := pluginInit.execute_reply_id + 1 },
         [.commandSend [.text "hub", .text "",
            .jsonText (get_execute_reply sampleUnknownReq
              pluginInit.execute_reply_id
              (some ⟨"NameError", "Unrecognized command: doesNotExist"⟩) [])]]) :=
  have h := C9_error_reply_contract hubHandlers pluginHandlers hubInit
    pluginInit sampleUnknownReq "doesNotExist" rfl rfl
  ⟨h.1 1 ⟨"NameError", "Unrecognized command: doesNotExist"⟩,
   h.2.1 rfl, h.2.2.2.1 rfl⟩

/-- C8 witness: registering `p1` twice on an empty registry through both
paths. -/
theorem C8_witness :
    (on_execute__register hubInit sampleRegisterReq).1.registry
        = jset hubInit.registry (.str "p1") (.str "p1")
    ∧ countKey (on_execute__register hubInit sampleRegisterReq).1.registry
        (.str "p1") = 1
    ∧ (on_execute__register (on_execute__register hubInit sampleRegisterReq).1
        sampleRegisterReq).1.registry
        = (on_execute__register hubInit sampleRegisterReq).1.registry
    ∧ (countKey hubInit.registry (.str "p1") = 0 →
        (on_execute__register hubInit sampleRegisterReq).1.registry
          = hubInit.registry ++ [(.str "p1", .str "p1")])
    ∧ (countKey hubInit.registry (.str "p1") = 1 →
        (on_execute__register hubInit sampleRegisterReq).1.registry.map Prod.fst
          = hubInit.registry.map Prod.fst)
    ∧ (∀ x ∈ hubInit.registry.map Prod.fst,
        x ∈ (on_execute__register hubInit sampleRegisterReq).1.registry.map
          Prod.fst)
    ∧ (hubQuerySecondTry hubInit sampleConnectReq).1.registry
        = jset hubInit.registry (.str "p1") (.str "p1") :=
  C8_registry_idempotent hubInit "p1" sampleRegisterReq sampleConnectReq
    rfl (by decide) rfl rfl

/-- C4: for every 5-frame envelope `[A, B, D, C, P]` submitted to the Hub's
`on_command_recv`, the frames emitted on the Command endpoint are exactly
`[B, A, D, C, P]`: sender and target swapped, delimiter, correlation id and
payload byte-identical; the state is untouched and no exception escapes.
The payload is never decoded: the equation holds for arbitrary frames,
including ones that do not parse as JSON. -/
theorem C4_relay_transparency (st : HubState) (a b d c p : Frame) :
    hubOnCommandRecv st [a, b, d, c, p] =
      (st, [.publish "command_in" (.frames [a, b, d, c, p]),
            .publish "command_out" (.frames [b, a, d, c, p]),
            .commandSend [b, a, d, c, p]], none) := rfl

/-- C5: a frame list of arity other than 5 delivered to the Hub's
`on_command_recv` is logged and dropped: nothing is emitted on the Command
endpoint, no endpoint is reset, registry and counter are unchanged (the
state is returned verbatim) and no exception escapes. -/
theorem C5_bad_arity_dropped (st : HubState) (frames : List Frame)
    (h : frames.length ≠ 5) :
    hubOnCommandRecv st frames =
      (st, [.publish "command_in" (.frames frames)], none) := by
  match frames with
  | [] => rfl
  | [a] => rfl
  | [a, b] => rfl
  | [a, b, c] => rfl
  | [a, b, c, d] => rfl
  | [a, b, c, d, e] => exact absurd rfl h
  | a :: b :: c :: d :: e :: f :: rest => rfl

/-- C5 witness: a 1-frame delivery is dropped with only the publish mirror
emitted. -/
theorem C5_witness :
    hubOnCommandRecv hubInit [.text "x"] =
      (hubInit, [.publish "command_in" (.frames [.text "x"])], none) :=
  C5_bad_arity_dropped hubInit [.text "x"] (by decide)

/-- C1 (code bug): the claim fails on the code.  `Plugin.execute` accepts a
`callback` argument but never stores it (`self.callbacks` is untouched), and
`Plugin._process__execute_reply` looks up `header['session_id']` — a key the
schema never defines (the header field is `session`) — so even with a
callback registered for session `"s1"`, a validated `execute_reply` whose
`header.session == "s1"` invokes no callback: the `KeyError` is swallowed by
the bare `except`.  (The second half of the claim — an unmatched reply
causes no error — does hold, as the final conjunct shows.) -/
theorem C1_callback_never_invoked :
    (pluginExecute pluginWithCb "p2" "go" (some 7) [] "m9" "s9").1 = pluginWithCb
    ∧ validate sampleReply = .ok sampleReply
    ∧ headerField sampleReply "session" = some (.str "s1")
    ∧ cblookup pluginWithCb.callbacks "s1" = some 0
    ∧ plugin_process_execute_reply pluginWithCb sampleReply = (pluginWithCb, [])
    ∧ pluginOnCommandRecv pluginHandlers pluginWithCb
        [.text "p2", .text "", .jsonText sampleReply] = (pluginWithCb, [], none) :=
  ⟨rfl, rfl, rfl, rfl, rfl, rfl⟩

/-- C2 (code bug): the claim fails on the code.  `badConnectReq` has a fully
valid header but a non-object `content`, so validation fails — yet
`Hub.on_query_recv` merely resets the query socket and *falls through* to
the processing block (there is no `return` in the `except` handler):
the source is registered and a `connect_reply` is sent.  Likewise the
Plugin's command path dispatches a message that failed validation:
`badExecuteReq` increments the reply counter and emits an error reply. -/
theorem C2_invalid_message_partially_processed :
    validate badConnectReq = .error (validationError "base_message")
    ∧ (hubOnQueryRecv (hubReset hubInit) [.jsonText badConnectReq]).1.registry
        = [(.str "p1", .str "p1")]
    ∧ numQuerySends (hubOnQueryRecv (hubReset hubInit)
        [.jsonText badConnectReq]).2.1 = 1
    ∧ validate badExecuteReq = .error (validationError "base_message")
    ∧ (pluginOnCommandRecv pluginHandlers pluginInit
        [.text "p2", .text "", .jsonText badExecuteReq]).1.execute_reply_id = 2
    ∧ numCommandSends (pluginOnCommandRecv pluginHandlers pluginInit
        [.text "p2", .text "", .jsonText badExecuteReq]).2.1 = 1 :=
  ⟨rfl, rfl, rfl, rfl, rfl, rfl⟩

/-- C3 (code bug): the claim fails on the code.  A frame that is not valid
JSON raises `ValueError` inside `json.loads`, which the `except
jsonschema.ValidationError` clause does not catch: the exception escapes
`on_query_recv` and the Query endpoint is *not* recreated (the state — in
particular `query_epoch` — is returned unchanged). -/
theorem C3_nonjson_frame_escapes :
    hubOnQueryRecv (hubReset hubInit) [.text "not json"] =
      (hubReset hubInit,
       [.publish "query_in" (.frames [.text "not json"])],
       some ⟨"ValueError", "No JSON object could be decoded: not json"⟩) := rfl

end ZmqPlugin
